import Mathlib

/-
  Shallow embedding of the incremental change-detection core of the
  ESL Inventory Synchronization Middleware (src/incremental_detector.py),
  together with proofs of the specification's claims about it.

  Modelling conventions:
  * Python record values (as produced by the external DBF decoder) are the
    `Value` inductive: `None`, `str`, `int`, and floats.  Floats are modelled
    only at integral values (`vFloat m` is the Python float with exact integer
    value `m`, whose `str` is `"{m}.0"`), which is all the claims exercise.
  * Python dicts are association lists with insertion-order semantics:
    assignment to an existing key updates in place, to a fresh key appends.
  * The MD5 digest is modelled by its pre-image: `calculate_record_checksum`
    returns the exact canonical JSON string the code feeds to
    `hashlib.md5(...)`.  MD5 is deterministic, and the spec assumes the
    digest is collision-resistant, so fingerprint (in)equality coincides
    with (in)equality of these canonical strings.
  * `json.dumps(..., sort_keys=True)` is embedded including its default
    separators and string escaping for the ASCII range (the inputs relevant
    here); `ensure_ascii` escaping of code points above 0x7e is not modelled.
-/

namespace ESL

/-- A scalar field value of a DBF record, as handed to the detector. -/
inductive Value where
  | vNone : Value
  | vStr : String → Value
  | vInt : Int → Value
  /-- A Python float with exact integral value `m`; `str` renders it `"m.0"`. -/
  | vFloat : Int → Value
deriving DecidableEq, Repr

/-- A record: an ordered field-name → value mapping (a Python dict). -/
abbrev Record := List (String × Value)

/-- Python `str(value)` on the values the detector sees. -/
def pyStr : Value → String
  | .vNone => "None"
  | .vStr s => s
  | .vInt n => toString n
  | .vFloat m => toString m ++ ".0"

/-- ASCII whitespace stripped by Python `str.strip()`. -/
def isPySpace (c : Char) : Bool :=
  c = ' ' || c = '\t' || c = '\n' || c = '\r' || c = Char.ofNat 11 || c = Char.ofNat 12

/-- Python `str.strip()` (for ASCII whitespace). -/
def pyStrip (s : String) : String :=
  String.mk (((s.data.dropWhile isPySpace).reverse.dropWhile isPySpace).reverse)

/-- Value normalization inside `calculate_record_checksum`:
`None → ""`, `int`/`float → str(value)`, `str → value.strip()`. -/
def normalizeValue : Value → String
  | .vNone => ""
  | .vInt n => toString n
  | .vFloat m => toString m ++ ".0"
  | .vStr s => pyStrip s

/-- Python dict lookup on an association list. -/
def dictGet {α : Type} (k : String) : List (String × α) → Option α
  | [] => none
  | (k', v) :: rest => if k' = k then some v else dictGet k rest

/-- Python dict assignment `d[k] = v`: update in place, else append. -/
def dictInsert {α : Type} (k : String) (v : α) : List (String × α) → List (String × α)
  | [] => [(k, v)]
  | (k', v') :: rest => if k' = k then (k, v) :: rest else (k', v') :: dictInsert k v rest

/-- Python string order (code-point lexicographic), lifted to keyed pairs. -/
def keyLe {α : Type} (a b : String × α) : Prop := a.1.data ≤ b.1.data

/-- Strict version of `keyLe`, used to identify sorted lists. -/
def keyLt {α : Type} (a b : String × α) : Prop := a.1.data < b.1.data

instance {α : Type} : DecidableRel (@keyLe α) :=
  fun a b => inferInstanceAs (Decidable (a.1.data ≤ b.1.data))

instance {α : Type} : IsTotal (String × α) keyLe :=
  ⟨fun a b => le_total a.1.data b.1.data⟩

instance {α : Type} : IsTrans (String × α) keyLe :=
  ⟨fun _ _ _ h1 h2 => le_trans h1 h2⟩

instance {α : Type} : IsAntisymm (String × α) (@keyLt α) :=
  ⟨fun _ _ h1 h2 => absurd h1 (lt_asymm h2)⟩

/-- `sorted(record.items())`: Python sorts the key/value pairs by key
(keys are distinct in a dict, so values never take part in the comparison). -/
def sortByKey {α : Type} (l : List (String × α)) : List (String × α) :=
  List.insertionSort keyLe l

/-- Lowercase hexadecimal digit, as used by `json.dumps` escapes. -/
def hexDigit (n : Nat) : Char :=
  if n < 10 then Char.ofNat (48 + n) else Char.ofNat (87 + n)

/-- `json.dumps` escaping of one character (ASCII range). -/
def escChar (c : Char) : String :=
  if c = '"' then "\\\""
  else if c = '\\' then "\\\\"
  else if c = '\n' then "\\n"
  else if c = '\t' then "\\t"
  else if c = '\r' then "\\r"
  else if c = Char.ofNat 8 then "\\b"
  else if c = Char.ofNat 12 then "\\f"
  else if c.toNat < 32 then
    "\\u00" ++ String.mk [hexDigit (c.toNat / 16), hexDigit (c.toNat % 16)]
  else String.singleton c

/-- A JSON string literal. -/
def jsonStr (s : String) : String :=
  "\"" ++ String.join (s.data.map escChar) ++ "\""

/-- A JSON object over already-ordered members, with the default
`json.dumps` separators `", "` and `": "`. -/
def jsonObj (m : List (String × String)) : String :=
  "\x7b" ++ String.intercalate ", " (m.map (fun p => jsonStr p.1 ++ ": " ++ jsonStr p.2)) ++ "\x7d"

/-- `json.dumps(d, sort_keys=True)` for a string-valued dict `d`. -/
def dumps (m : List (String × String)) : String :=
  jsonObj (sortByKey m)

/-- The default excluded-field list of `calculate_record_checksum`. -/
def defaultExcluded : List String := ["TIMESTAMP", "MODIFIED"]

/-- `exclude_fields = exclude_fields or ['TIMESTAMP', 'MODIFIED']`:
`None` and the empty list both select the default. -/
def effectiveExcluded : Option (List String) → List String
  | none => defaultExcluded
  | some l => if l.isEmpty then defaultExcluded else l

/-- The `checksum_data` dict: iterate `sorted(record.items())`, drop fields
whose name is in the excluded list, normalize the remaining values. -/
def checksumData (record : Record) (ex : List String) : List (String × String) :=
  ((sortByKey record).filter (fun p => !(ex.contains p.1))).foldl
    (fun m p => dictInsert p.1 (normalizeValue p.2) m) []

/-- `IncrementalDetector.calculate_record_checksum`, returning the canonical
JSON string whose MD5 digest the code returns (see the header note). -/
def calculate_record_checksum (record : Record) (excludeFields : Option (List String)) : String :=
  dumps (checksumData record (effectiveExcluded excludeFields))

/-- Field normalization as a map on keyed pairs (keeps the field name). -/
def normPair (p : String × Value) : String × String := (p.1, normalizeValue p.2)

/-- The canonical member list actually serialized for a record: non-excluded
fields, values normalized, in sorted key order. -/
def canonicalItems (record : Record) (ex : List String) : List (String × String) :=
  sortByKey ((record.filter (fun p => !(ex.contains p.1))).map normPair)

/-- The `ChangeType` enum. -/
inductive ChangeType where
  | NEW | UPDATED | DELETED | UNCHANGED
deriving DecidableEq, Repr

/-- The `RecordState` dataclass.  `doc_no` holds whatever
`record.get('DOC_NO')` returned when the state was built. -/
structure RecordState where
  record_id : String
  checksum : String
  last_seen : String
  doc_no : Option Value := none
  deleted : Bool := false
deriving DecidableEq, Repr

/-- An element of `changes['new']`. -/
structure NewEntry where
  record : Record
  change_type : ChangeType
  record_id : String
  checksum : String
deriving DecidableEq, Repr

/-- An element of `changes['updated']`. -/
structure UpdatedEntry where
  record : Record
  change_type : ChangeType
  record_id : String
  old_checksum : String
  new_checksum : String
deriving DecidableEq, Repr

/-- An element of `changes['unchanged']`. -/
structure UnchangedEntry where
  record : Record
  change_type : ChangeType
  record_id : String
deriving DecidableEq, Repr

/-- An element of `changes['deleted']`.  In the code, `last_state` is the very
dict that is subsequently mutated by `previous_records[record_id]['deleted'] =
True`, so the entry observes `deleted=True` (aliasing). -/
structure DeletedEntry where
  record_id : String
  change_type : ChangeType
  last_state : RecordState
deriving DecidableEq, Repr

/-- The four-way change dictionary returned by `detect_changes`. -/
structure Changes where
  new : List NewEntry
  updated : List UpdatedEntry
  deleted : List DeletedEntry
  unchanged : List UnchangedEntry
deriving DecidableEq, Repr

def emptyChanges : Changes := ⟨[], [], [], []⟩

/-- Per-file entry of the persisted state (`StateTracker.get_file_state`
shape).  `records` is a dict keyed by record id. -/
structure FileState where
  last_processed : Option String := none
  last_doc_no : Int := 0
  records : List (String × RecordState) := []
  file_checksum : Option String := none
  last_modified : Option String := none
deriving DecidableEq, Repr

/-- `StateTracker.state_data`: dict from file name to its state. -/
abbrev StateData := List (String × FileState)

/-- The default entry `get_file_state` creates for an unknown file. -/
def defaultFileState : FileState := {}

/-- `StateTracker.get_file_state`: returns the existing entry, or inserts and
returns a fresh default entry (a mutation of `state_data`). -/
def get_file_state (sd : StateData) (fileName : String) : FileState × StateData :=
  match dictGet fileName sd with
  | some fs => (fs, sd)
  | none => (defaultFileState, dictInsert fileName defaultFileState sd)

/-- `record_id = str(record.get(id_field, ""))`; the skip test is
`if not record_id`, i.e. the empty string. -/
def recordIdOf (idField : String) (record : Record) : String :=
  match dictGet idField record with
  | none => ""
  | some v => pyStr v

/-- Python `int(value)` on the values the detector sees; `none` means the
`(ValueError, TypeError)` branch.  `int` of an integral float truncates to
its own value; `int(str)` parses an optionally signed decimal. -/
def pyToInt : Value → Option Int
  | .vInt n => some n
  | .vFloat m => some m
  | .vStr s => (pyStrip s).toInt?
  | .vNone => none

/-- The loop-carried state of the record loop in `detect_changes`:
`previous_records` (aliasing `file_state['records']`), the
`current_record_ids` set, `max_doc_no`, and the change lists so far. -/
structure LoopState where
  prev : List (String × RecordState)
  currentIds : List String
  maxDocNo : Int
  changes : Changes

/-- `current_record_ids.add(rid)` (set semantics: only membership is used). -/
def insertId (k : String) (ids : List String) : List String :=
  if ids.contains k then ids else ids ++ [k]

/-- The fresh `RecordState(...)` built on the New and Updated paths:
note `deleted` is left at its default `False`. -/
def mkRecordState (rid cks ts : String) (record : Record) : RecordState :=
  { record_id := rid, checksum := cks, last_seen := ts,
    doc_no := dictGet "DOC_NO" record, deleted := false }

/-- The `if track_doc_no and 'DOC_NO' in record` block: fold the record's
`DOC_NO` into the running maximum, ignoring missing or non-numeric values. -/
def docNoUpdate (trackDocNo : Bool) (record : Record) (cur : Int) : Int :=
  if trackDocNo then
    match dictGet "DOC_NO" record with
    | some v =>
      match pyToInt v with
      | some d => max cur d
      | none => cur
    | none => cur
  else cur

/-- One iteration of the `for record in current_records` loop of
`IncrementalDetector.detect_changes`. -/
def processRecord (idField : String) (trackDocNo : Bool) (ts : String)
    (st : LoopState) (record : Record) : LoopState :=
  let rid := recordIdOf idField record
  if rid = "" then st
  else
    let ids := insertId rid st.currentIds
    let maxDoc := docNoUpdate trackDocNo record st.maxDocNo
    let cks := calculate_record_checksum record none
    match dictGet rid st.prev with
    | some prevState =>
      if prevState.checksum ≠ cks then
        { prev := dictInsert rid (mkRecordState rid cks ts record) st.prev
          currentIds := ids
          maxDocNo := maxDoc
          changes := { st.changes with
            updated := st.changes.updated ++
              [{ record := record, change_type := .UPDATED, record_id := rid,
                 old_checksum := prevState.checksum, new_checksum := cks }] } }
      else
        { prev := dictInsert rid { prevState with last_seen := ts } st.prev
          currentIds := ids
          maxDocNo := maxDoc
          changes := { st.changes with
            unchanged := st.changes.unchanged ++
              [{ record := record, change_type := .UNCHANGED, record_id := rid }] } }
    | none =>
      { prev := dictInsert rid (mkRecordState rid cks ts record) st.prev
        currentIds := ids
        maxDocNo := maxDoc
        changes := { st.changes with
          new := st.changes.new ++
            [{ record := record, change_type := .NEW, record_id := rid, checksum := cks }] } }

/-- The deleted-record scan at the end of `detect_changes`: walk
`previous_records` in order; every key not observed in the current snapshot
and not already marked deleted yields a Deleted entry and is marked
`deleted=True` in place (the entry's `last_state` aliases the mutated dict). -/
def markDeleted (currentIds : List String) :
    List (String × RecordState) → List (String × RecordState) × List DeletedEntry
  | [] => ([], [])
  | (k, st) :: rest =>
    let next := markDeleted currentIds rest
    if !(currentIds.contains k) && !st.deleted then
      let st' := { st with deleted := true }
      ((k, st') :: next.1,
       { record_id := k, change_type := .DELETED, last_state := st' } :: next.2)
    else
      ((k, st) :: next.1, next.2)

/-- Result of one `detect_changes` call.  `changes = none` means an exception
propagated out of the call; `mem` is the in-memory `state_data` afterwards
(Python mutates `previous_records` in place, so it is visible there even when
the call raises); `saved` records whether `save_state` persisted the state. -/
structure DetectResult where
  changes : Option Changes
  mem : StateData
  saved : Bool
deriving DecidableEq, Repr

/-- `IncrementalDetector.detect_changes`.

Effect parameters model the call's I/O:
`snapshot = none` means `read_dbf_file` raised (it returns a complete list or
raises); `mtime = none` means `file_path.stat()` raised when the final
`update_file_state` argument was built; `saveOk = false` means `save_state`
raised.  On each of these the exception propagates (`changes = none`), and
`mem` is whatever `state_data` holds at that point — `previous_records` is the
very dict stored in `state_data`, so its mutations are already visible. -/
def detect_changes (sd : StateData) (fileName : String) (idField : String)
    (trackDocNo : Bool) (ts : String) (snapshot : Option (List Record))
    (mtime : Option String) (saveOk : Bool) : DetectResult :=
  let fsSd := get_file_state sd fileName
  let fs := fsSd.1
  let sd1 := fsSd.2
  match snapshot with
  | none => { changes := none, mem := sd1, saved := false }
  | some records =>
    let ls := records.foldl (processRecord idField trackDocNo ts)
      { prev := fs.records, currentIds := [], maxDocNo := fs.last_doc_no,
        changes := emptyChanges }
    let md := markDeleted ls.currentIds ls.prev
    let changesAll := { ls.changes with deleted := ls.changes.deleted ++ md.2 }
    match mtime with
    | none =>
      -- stat() raised: the loop's mutations are already in state_data
      { changes := none, mem := dictInsert fileName { fs with records := md.1 } sd1,
        saved := false }
    | some mt =>
      let fs2 := { fs with
        last_processed := some ts
        last_doc_no := ls.maxDocNo
        records := md.1
        last_modified := some mt }
      let sd2 := dictInsert fileName fs2 sd1
      if saveOk then { changes := some changesAll, mem := sd2, saved := true }
      else { changes := none, mem := sd2, saved := false }

/-- A flat file system: path → complete contents. -/
abbrev FileSystem := List (String × String)

/-- Remove every binding of a path (`os.remove` / the removal half of
`os.replace`). -/
def dictRemove {α : Type} (k : String) (l : List (String × α)) : List (String × α) :=
  l.filter (fun p => !(p.1 == k))

/-- How one `save_state` attempt ends.  `writeFails p` is an exception while
the temp file is being written (with `p` the partial contents flushed so far,
`none` if the file was never created); `crashBeforeRename` is a process crash
between the finished temp write and `os.replace`. -/
inductive SaveOutcome where
  | success
  | writeFails (partialContents : Option String)
  | crashBeforeRename
deriving DecidableEq, Repr

/-- Result of a `save_state` attempt: the file system afterwards, and whether
the call raised (a crash never returns, so `raised` is false there). -/
structure SaveResult where
  fs : FileSystem
  raised : Bool
deriving DecidableEq, Repr

/-- `StateTracker.save_state`: write the serialized state to
`state_file + ".tmp"`, then `os.replace` it onto `state_file`; on an
exception, remove the temp file if it exists and re-raise. -/
def save_state (fs : FileSystem) (stateFile : String) (contents : String)
    (outcome : SaveOutcome) : SaveResult :=
  let tempFile := stateFile ++ ".tmp"
  match outcome with
  | .success =>
    let fs1 := dictInsert tempFile contents fs
    { fs := dictInsert stateFile contents (dictRemove tempFile fs1), raised := false }
  | .writeFails p =>
    let fs1 := match p with
      | some partialContents => dictInsert tempFile partialContents fs
      | none => fs
    { fs := dictRemove tempFile fs1, raised := true }
  | .crashBeforeRename =>
    { fs := dictInsert tempFile contents fs, raised := false }

/-! ### Association-list (Python dict) lemmas -/

theorem dictGet_dictInsert_self {α : Type} (k : String) (v : α) (l : List (String × α)) :
    dictGet k (dictInsert k v l) = some v := by
  induction l with
  | nil => simp [dictInsert, dictGet]
  | cons p rest ih =>
    by_cases h : p.1 = k
    · simp [dictInsert, dictGet, h]
    · simp [dictInsert, dictGet, h, ih]

theorem dictGet_dictInsert_ne {α : Type} {k k' : String} (h : k' ≠ k) (v : α)
    (l : List (String × α)) : dictGet k (dictInsert k' v l) = dictGet k l := by
  induction l with
  | nil => simp [dictInsert, dictGet, h]
  | cons p rest ih =>
    obtain ⟨a, b⟩ := p
    by_cases h1 : a = k'
    · subst h1
      simp [dictInsert, dictGet, h]
    · simp [dictInsert, dictGet, h1, ih]

theorem dictInsert_of_get_none {α : Type} {k : String} {l : List (String × α)}
    (h : dictGet k l = none) (v : α) : dictInsert k v l = l ++ [(k, v)] := by
  induction l with
  | nil => simp [dictInsert]
  | cons p rest ih =>
    by_cases h1 : p.1 = k
    · simp [dictGet, h1] at h
    · simp [dictGet, h1] at h
      simp [dictInsert, h1, ih h]

theorem dictGet_append_of_none {α : Type} {k : String} {l1 : List (String × α)}
    (h : dictGet k l1 = none) (l2 : List (String × α)) :
    dictGet k (l1 ++ l2) = dictGet k l2 := by
  induction l1 with
  | nil => simp
  | cons p rest ih =>
    by_cases h1 : p.1 = k
    · simp [dictGet, h1] at h
    · simp [dictGet, h1] at h ⊢
      exact ih h

theorem dictGet_singleton {α : Type} (k k' : String) (v : α) :
    dictGet k [(k', v)] = if k' = k then some v else none := by
  simp [dictGet]

theorem mem_of_dictGet_eq_some {α : Type} {k : String} {v : α} {l : List (String × α)}
    (h : dictGet k l = some v) : (k, v) ∈ l := by
  induction l with
  | nil => simp [dictGet] at h
  | cons p rest ih =>
    obtain ⟨a, b⟩ := p
    by_cases h1 : a = k
    · subst h1
      simp [dictGet] at h
      subst h
      exact List.mem_cons_self _ _
    · simp [dictGet, h1] at h
      exact List.mem_cons_of_mem _ (ih h)

theorem dictGet_eq_some_of_mem_nodup {α : Type} {k : String} {v : α}
    {l : List (String × α)} (h : (k, v) ∈ l) (hn : (l.map Prod.fst).Nodup) :
    dictGet k l = some v := by
  induction l with
  | nil => simp at h
  | cons p rest ih =>
    obtain ⟨a, b⟩ := p
    simp only [List.map_cons, List.nodup_cons] at hn
    rcases List.mem_cons.mp h with h1 | h1
    · obtain ⟨e1, e2⟩ := Prod.mk.injEq .. ▸ h1
      subst e1
      subst e2
      simp [dictGet]
    · have hne : a ≠ k := by
        intro he
        apply hn.1
        rw [he]
        exact List.mem_map.mpr ⟨(k, v), h1, rfl⟩
      simp [dictGet, hne]
      exact ih h1 hn.2

theorem mem_dictInsert {α : Type} {p : String × α} {k : String} {v : α}
    {l : List (String × α)} (h : p ∈ dictInsert k v l) : p ∈ l ∨ p = (k, v) := by
  induction l with
  | nil => simp [dictInsert] at h; right; exact h
  | cons q rest ih =>
    obtain ⟨a, b⟩ := q
    by_cases h1 : a = k
    · subst h1
      simp only [dictInsert, if_pos] at h
      rcases List.mem_cons.mp h with h2 | h2
      · right; exact h2
      · left; exact List.mem_cons_of_mem _ h2
    · simp only [dictInsert, if_neg h1] at h
      rcases List.mem_cons.mp h with h2 | h2
      · left; exact h2 ▸ List.mem_cons_self _ _
      · rcases ih h2 with h3 | h3
        · left; exact List.mem_cons_of_mem _ h3
        · right; exact h3

theorem nodup_keys_dictInsert {α : Type} (k : String) (v : α) {l : List (String × α)}
    (h : (l.map Prod.fst).Nodup) : ((dictInsert k v l).map Prod.fst).Nodup := by
  induction l with
  | nil => simp [dictInsert]
  | cons p rest ih =>
    obtain ⟨a, b⟩ := p
    simp only [List.map_cons, List.nodup_cons] at h
    by_cases h1 : a = k
    · subst h1
      simp only [dictInsert, if_pos, List.map_cons, List.nodup_cons]
      exact ⟨h.1, h.2⟩
    · simp only [dictInsert, if_neg h1, List.map_cons, List.nodup_cons]
      refine ⟨?_, ih h.2⟩
      intro hmem
      rcases List.mem_map.mp hmem with ⟨q, hq, hq1⟩
      rcases mem_dictInsert hq with h2 | h2
      · exact h.1 (hq1 ▸ List.mem_map.mpr ⟨q, h2, rfl⟩)
      · apply h1
        rw [← hq1, h2]

theorem dictGet_map_val {α β : Type} (f : String → α → β) (k : String)
    (l : List (String × α)) :
    dictGet k (l.map (fun p => (p.1, f p.1 p.2))) = (dictGet k l).map (f k) := by
  induction l with
  | nil => simp [dictGet]
  | cons p rest ih =>
    by_cases h1 : p.1 = k
    · subst h1; simp [dictGet, ih]
    · simp [dictGet, h1, ih]

theorem foldl_dictInsert {β γ : Type} (g : String × β → γ) :
    ∀ (l : List (String × β)) (acc : List (String × γ)),
      (∀ p ∈ l, dictGet p.1 acc = none) → (l.map Prod.fst).Nodup →
      l.foldl (fun m p => dictInsert p.1 (g p) m) acc = acc ++ l.map (fun p => (p.1, g p))
  | [], acc, _, _ => by simp
  | (k, v) :: t, acc, hd, hn => by
    simp only [List.map_cons, List.nodup_cons] at hn
    have h1 : dictGet k acc = none := hd (k, v) (List.mem_cons_self _ _)
    have hstep : dictInsert k (g (k, v)) acc = acc ++ [(k, g (k, v))] :=
      dictInsert_of_get_none h1 _
    have hd' : ∀ p ∈ t, dictGet p.1 (acc ++ [(k, g (k, v))]) = none := by
      intro p hp
      rw [dictGet_append_of_none (hd p (List.mem_cons_of_mem _ hp)), dictGet_singleton]
      have : k ≠ p.1 := fun he => hn.1 (he ▸ List.mem_map.mpr ⟨p, hp, rfl⟩)
      simp [this]
    calc ((k, v) :: t).foldl (fun m p => dictInsert p.1 (g p) m) acc
        = t.foldl (fun m p => dictInsert p.1 (g p) m) (acc ++ [(k, g (k, v))]) := by
          simp [hstep]
      _ = (acc ++ [(k, g (k, v))]) ++ t.map (fun p => (p.1, g p)) :=
          foldl_dictInsert g t _ hd' hn.2
      _ = acc ++ ((k, v) :: t).map (fun p => (p.1, g p)) := by simp

/-! ### Sorting lemmas -/

theorem sortByKey_perm {α : Type} (l : List (String × α)) : (sortByKey l).Perm l :=
  List.perm_insertionSort keyLe l

theorem sortByKey_eq_of_perm {α : Type} {l1 l2 : List (String × α)} (h : l1.Perm l2)
    (hn : (l1.map Prod.fst).Nodup) : sortByKey l1 = sortByKey l2 := by
  have p1 := sortByKey_perm l1
  have p2 := sortByKey_perm l2
  have hp : (sortByKey l1).Perm (sortByKey l2) := p1.trans (h.trans p2.symm)
  have hn1 : ((sortByKey l1).map Prod.fst).Nodup := ((p1.map Prod.fst).nodup_iff).mpr hn
  have hn2 : ((sortByKey l2).map Prod.fst).Nodup :=
    ((p2.map Prod.fst).nodup_iff).mpr (((h.map Prod.fst).nodup_iff).mp hn)
  have hstrict : ∀ {m : List (String × α)}, List.Sorted keyLe m →
      ((m.map Prod.fst).Nodup) → List.Sorted keyLt m := by
    intro m hs hnd
    have hne : m.Pairwise (fun a b : String × α => a.1 ≠ b.1) :=
      List.pairwise_map.mp hnd
    exact (hs.and hne).imp (fun {a b} hab =>
      lt_of_le_of_ne hab.1 (fun hd => hab.2 (String.ext hd)))
  exact List.eq_of_perm_of_sorted hp
    (hstrict (List.sorted_insertionSort keyLe l1) hn1)
    (hstrict (List.sorted_insertionSort keyLe l2) hn2)

/-! ### Checksum canonicalization -/

theorem checksumData_eq_of_nodup {r : Record} {ex : List String}
    (hn : (r.map Prod.fst).Nodup) :
    checksumData r ex =
      ((sortByKey r).filter (fun p => !(ex.contains p.1))).map normPair := by
  have hsort : ((sortByKey r).map Prod.fst).Nodup :=
    (((sortByKey_perm r).map Prod.fst).nodup_iff).mpr hn
  have hfilter : ((((sortByKey r).filter (fun p => !(ex.contains p.1)))).map Prod.fst).Nodup :=
    ((List.filter_sublist (sortByKey r)).map Prod.fst).nodup hsort
  have := foldl_dictInsert (fun p => normalizeValue p.2)
    ((sortByKey r).filter (fun p => !(ex.contains p.1))) []
    (fun _ _ => rfl) hfilter
  simpa [checksumData, normPair] using this

theorem checksum_eq_canonical {r : Record} {ef : Option (List String)}
    (hn : (r.map Prod.fst).Nodup) :
    calculate_record_checksum r ef = jsonObj (canonicalItems r (effectiveExcluded ef)) := by
  unfold calculate_record_checksum dumps canonicalItems
  rw [checksumData_eq_of_nodup hn]
  congr 1
  apply sortByKey_eq_of_perm
  · exact ((sortByKey_perm r).filter _).map normPair
  · rw [List.map_map]
    have : (Prod.fst ∘ normPair) = (Prod.fst : String × Value → String) := rfl
    rw [this]
    exact ((List.filter_sublist (sortByKey r)).map Prod.fst).nodup
      ((((sortByKey_perm r).map Prod.fst).nodup_iff).mpr hn)

/-- Claim C5: the fingerprint is invariant under field order — for any two
orderings of the same field-to-value set (field names distinct, as in a
Python dict), `calculate_record_checksum` yields the same result, for any
excluded-field list. -/
theorem checksum_field_order_invariant (r1 r2 : Record) (ef : Option (List String))
    (hperm : r1.Perm r2) (hn : (r1.map Prod.fst).Nodup) :
    calculate_record_checksum r1 ef = calculate_record_checksum r2 ef := by
  have hn2 : (r2.map Prod.fst).Nodup := ((hperm.map Prod.fst).nodup_iff).mp hn
  rw [checksum_eq_canonical hn, checksum_eq_canonical hn2]
  unfold canonicalItems
  congr 1
  apply sortByKey_eq_of_perm ((hperm.filter _).map normPair)
  rw [List.map_map]
  have he : (Prod.fst ∘ normPair) = (Prod.fst : String × Value → String) := rfl
  rw [he]
  exact ((List.filter_sublist r1).map Prod.fst).nodup hn

/-- Witness for C5 at a concrete permuted pair of records. -/
theorem checksum_field_order_invariant_witness :
    ([("B", Value.vStr "2"), ("A", Value.vStr "1")] : Record).Perm
      [("A", Value.vStr "1"), ("B", Value.vStr "2")] ∧
    (([("B", Value.vStr "2"), ("A", Value.vStr "1")] : Record).map Prod.fst).Nodup ∧
    calculate_record_checksum [("B", Value.vStr "2"), ("A", Value.vStr "1")] none =
      calculate_record_checksum [("A", Value.vStr "1"), ("B", Value.vStr "2")] none :=
  ⟨by decide, by decide,
    checksum_field_order_invariant _ _ none (by decide) (by decide)⟩

/-- Claim C6 counterexample: field-name handling is case-SENSITIVE, not
case-insensitive.  A field named `"timestamp"` is not matched by the default
excluded entry `"TIMESTAMP"` (it changes the fingerprint), and two records
identical except for the letter case of a field name get different
fingerprints. -/
theorem checksum_case_insensitive_counterexample :
    calculate_record_checksum [("timestamp", Value.vStr "1"), ("A", Value.vStr "x")] none ≠
      calculate_record_checksum [("A", Value.vStr "x")] none ∧
    calculate_record_checksum [("A", Value.vStr "x")] none ≠
      calculate_record_checksum [("a", Value.vStr "x")] none := by
  decide

/-- Claim C6 (amended): field names are matched case-sensitively — a field
whose name is exactly equal (including case) to an entry of the effective
excluded-field list is omitted from the hash input. -/
theorem checksum_excludes_exact_match (r1 r2 : List (String × Value)) (k : String)
    (v : Value) (ef : Option (List String)) (hk : k ∈ effectiveExcluded ef)
    (hn : (((r1 ++ (k, v) :: r2) : Record).map Prod.fst).Nodup) :
    calculate_record_checksum (r1 ++ (k, v) :: r2) ef =
      calculate_record_checksum (r1 ++ r2) ef := by
  have hsub : (r1 ++ r2).Sublist (r1 ++ (k, v) :: r2) :=
    List.Sublist.append_left (List.sublist_cons_self (k, v) r2) r1
  have hn2 : (((r1 ++ r2) : Record).map Prod.fst).Nodup := (hsub.map Prod.fst).nodup hn
  rw [checksum_eq_canonical hn, checksum_eq_canonical hn2]
  unfold canonicalItems
  simp [List.filter_append, List.filter_cons, hk]

/-- Witness for the amended C6 at a concrete record carrying a default
excluded field. -/
theorem checksum_excludes_exact_match_witness :
    "TIMESTAMP" ∈ effectiveExcluded none ∧
    ((([("PART_NO", Value.vStr "A")] ++ ("TIMESTAMP", Value.vStr "now") :: [] : Record)).map
      Prod.fst).Nodup ∧
    calculate_record_checksum
        ([("PART_NO", Value.vStr "A")] ++ ("TIMESTAMP", Value.vStr "now") :: []) none =
      calculate_record_checksum ([("PART_NO", Value.vStr "A")] ++ []) none :=
  ⟨by decide, by decide,
    checksum_excludes_exact_match _ _ _ _ none (by decide) (by decide)⟩

/-- Claim C7 counterexample: numeric normalization is Python `str`, which is
NOT a canonical decimal form across numeric types — the int `10` hashes as
`"10"` while the float `10.0` hashes as `"10.0"`, so two records with
numerically equal values get different fingerprints. -/
theorem checksum_numeric_normalization_counterexample :
    calculate_record_checksum [("PART_NO", Value.vStr "A"), ("QTY", Value.vInt 10)] none ≠
      calculate_record_checksum [("PART_NO", Value.vStr "A"), ("QTY", Value.vFloat 10)] none := by
  decide

/-- Claim C7 (amended): normalization maps `None` to the empty string and
trims strings of surrounding whitespace; any two records (with distinct field
names) whose fields normalize pairwise to the same canonical strings — in
particular, string values differing only in surrounding whitespace, or
`None` versus the empty string — yield equal fingerprints, so such
differences never produce a false Updated classification. -/
theorem checksum_eq_of_normalized_eq (r1 r2 : Record) (ef : Option (List String))
    (hn : (r1.map Prod.fst).Nodup)
    (h : r1.map normPair = r2.map normPair) :
    calculate_record_checksum r1 ef = calculate_record_checksum r2 ef := by
  have hkeys : r1.map Prod.fst = r2.map Prod.fst := by
    have h1 : (r1.map normPair).map Prod.fst = (r2.map normPair).map Prod.fst := by rw [h]
    have he : (Prod.fst ∘ normPair) = (Prod.fst : String × Value → String) := rfl
    rw [List.map_map, List.map_map, he] at h1
    exact h1
  have hn2 : (r2.map Prod.fst).Nodup := hkeys ▸ hn
  rw [checksum_eq_canonical hn, checksum_eq_canonical hn2]
  unfold canonicalItems
  have key : ∀ r : Record,
      (r.filter (fun p => !((effectiveExcluded ef).contains p.1))).map normPair =
        (r.map normPair).filter (fun q => !((effectiveExcluded ef).contains q.1)) := by
    intro r
    induction r with
    | nil => rfl
    | cons p t ih =>
      by_cases hc : p.1 ∈ effectiveExcluded ef
      · simpa [List.filter_cons, hc, normPair] using ih
      · simpa [List.filter_cons, hc, normPair] using ih
  rw [key r1, key r2, h]

/-- Witness for the amended C7: `None` versus empty string, and a value
differing only in surrounding whitespace. -/
theorem checksum_eq_of_normalized_eq_witness :
    (([("D", Value.vNone), ("NAME", Value.vStr " x ")] : Record).map Prod.fst).Nodup ∧
    ([("D", Value.vNone), ("NAME", Value.vStr " x ")] : Record).map normPair =
      ([("D", Value.vStr ""), ("NAME", Value.vStr "x")] : Record).map normPair ∧
    calculate_record_checksum [("D", Value.vNone), ("NAME", Value.vStr " x ")] none =
      calculate_record_checksum [("D", Value.vStr ""), ("NAME", Value.vStr "x")] none :=
  ⟨by decide, by decide,
    checksum_eq_of_normalized_eq _ _ none (by decide) (by decide)⟩

/-! ### Record-loop step lemmas -/

theorem contains_iff {α : Type} [BEq α] [LawfulBEq α] {a : α} {l : List α} :
    l.contains a = true ↔ a ∈ l :=
  List.elem_iff

theorem mem_insertId {k k' : String} {ids : List String} :
    k ∈ insertId k' ids ↔ k ∈ ids ∨ k = k' := by
  unfold insertId
  by_cases h : ids.contains k'
  · have h' : k' ∈ ids := List.elem_iff.mp h
    simp only [if_pos h]
    constructor
    · exact Or.inl
    · rintro (h1 | rfl)
      · exact h1
      · exact h'
  · simp only [if_neg h, List.mem_append, List.mem_singleton]

theorem processRecord_skip {idField : String} {trackDocNo : Bool} {ts : String}
    {r : Record} (h : recordIdOf idField r = "") (ls : LoopState) :
    processRecord idField trackDocNo ts ls r = ls := by
  unfold processRecord
  simp [h]

theorem processRecord_new {idField : String} {trackDocNo : Bool} {ts : String}
    {r : Record} {ls : LoopState} (h : recordIdOf idField r ≠ "")
    (hget : dictGet (recordIdOf idField r) ls.prev = none) :
    processRecord idField trackDocNo ts ls r =
      { prev := dictInsert (recordIdOf idField r)
          (mkRecordState (recordIdOf idField r) (calculate_record_checksum r none) ts r)
          ls.prev
        currentIds := insertId (recordIdOf idField r) ls.currentIds
        maxDocNo := docNoUpdate trackDocNo r ls.maxDocNo
        changes := { ls.changes with
          new := ls.changes.new ++
            [{ record := r, change_type := .NEW, record_id := recordIdOf idField r,
               checksum := calculate_record_checksum r none }] } } := by
  unfold processRecord
  simp [h, hget]

theorem processRecord_updated {idField : String} {trackDocNo : Bool} {ts : String}
    {r : Record} {ls : LoopState} {prevState : RecordState}
    (h : recordIdOf idField r ≠ "")
    (hget : dictGet (recordIdOf idField r) ls.prev = some prevState)
    (hck : prevState.checksum ≠ calculate_record_checksum r none) :
    processRecord idField trackDocNo ts ls r =
      { prev := dictInsert (recordIdOf idField r)
          (mkRecordState (recordIdOf idField r) (calculate_record_checksum r none) ts r)
          ls.prev
        currentIds := insertId (recordIdOf idField r) ls.currentIds
        maxDocNo := docNoUpdate trackDocNo r ls.maxDocNo
        changes := { ls.changes with
          updated := ls.changes.updated ++
            [{ record := r, change_type := .UPDATED, record_id := recordIdOf idField r,
               old_checksum := prevState.checksum,
               new_checksum := calculate_record_checksum r none }] } } := by
  unfold processRecord
  simp [h, hget, hck]

theorem processRecord_unchanged {idField : String} {trackDocNo : Bool} {ts : String}
    {r : Record} {ls : LoopState} {prevState : RecordState}
    (h : recordIdOf idField r ≠ "")
    (hget : dictGet (recordIdOf idField r) ls.prev = some prevState)
    (hck : prevState.checksum = calculate_record_checksum r none) :
    processRecord idField trackDocNo ts ls r =
      { prev := dictInsert (recordIdOf idField r) { prevState with last_seen := ts } ls.prev
        currentIds := insertId (recordIdOf idField r) ls.currentIds
        maxDocNo := docNoUpdate trackDocNo r ls.maxDocNo
        changes := { ls.changes with
          unchanged := ls.changes.unchanged ++
            [{ record := r, change_type := .UNCHANGED,
               record_id := recordIdOf idField r }] } } := by
  unfold processRecord
  simp [h, hget, hck]

theorem processRecord_currentIds {idField : String} {trackDocNo : Bool} {ts : String}
    (r : Record) (ls : LoopState) :
    (processRecord idField trackDocNo ts ls r).currentIds =
      if recordIdOf idField r = "" then ls.currentIds
      else insertId (recordIdOf idField r) ls.currentIds := by
  by_cases h0 : recordIdOf idField r = ""
  · rw [processRecord_skip h0, if_pos h0]
  · rw [if_neg h0]
    rcases hget : dictGet (recordIdOf idField r) ls.prev with _ | ps
    · rw [processRecord_new h0 hget]
    · by_cases hck : ps.checksum = calculate_record_checksum r none
      · rw [processRecord_unchanged h0 hget hck]
      · rw [processRecord_updated h0 hget hck]

theorem processRecord_prev_frame {idField : String} {trackDocNo : Bool} {ts : String}
    {r : Record} {k : String} (h : recordIdOf idField r ≠ k) (ls : LoopState) :
    dictGet k (processRecord idField trackDocNo ts ls r).prev = dictGet k ls.prev := by
  by_cases h0 : recordIdOf idField r = ""
  · rw [processRecord_skip h0]
  · rcases hget : dictGet (recordIdOf idField r) ls.prev with _ | ps
    · rw [processRecord_new h0 hget]
      exact dictGet_dictInsert_ne h _ _
    · by_cases hck : ps.checksum = calculate_record_checksum r none
      · rw [processRecord_unchanged h0 hget hck]
        exact dictGet_dictInsert_ne h _ _
      · rw [processRecord_updated h0 hget hck]
        exact dictGet_dictInsert_ne h _ _

theorem processRecord_checksum_self {idField : String} {trackDocNo : Bool} {ts : String}
    {r : Record} (h : recordIdOf idField r ≠ "") (ls : LoopState) :
    (dictGet (recordIdOf idField r) (processRecord idField trackDocNo ts ls r).prev).map
        RecordState.checksum = some (calculate_record_checksum r none) := by
  rcases hget : dictGet (recordIdOf idField r) ls.prev with _ | ps
  · rw [processRecord_new h hget]
    simp [dictGet_dictInsert_self, mkRecordState]
  · by_cases hck : ps.checksum = calculate_record_checksum r none
    · rw [processRecord_unchanged h hget hck]
      simp [dictGet_dictInsert_self, hck]
    · rw [processRecord_updated h hget hck]
      simp [dictGet_dictInsert_self, mkRecordState]

theorem processRecord_changes_ids {idField : String} {trackDocNo : Bool} {ts : String}
    (r : Record) (ls : LoopState) :
    (∀ e ∈ (processRecord idField trackDocNo ts ls r).changes.new,
        e ∈ ls.changes.new ∨ e.record_id = recordIdOf idField r) ∧
    (∀ e ∈ (processRecord idField trackDocNo ts ls r).changes.updated,
        e ∈ ls.changes.updated ∨ e.record_id = recordIdOf idField r) ∧
    (∀ e ∈ (processRecord idField trackDocNo ts ls r).changes.unchanged,
        e ∈ ls.changes.unchanged ∨ e.record_id = recordIdOf idField r) ∧
    (processRecord idField trackDocNo ts ls r).changes.deleted = ls.changes.deleted := by
  by_cases h0 : recordIdOf idField r = ""
  · rw [processRecord_skip h0]
    exact ⟨fun e he => Or.inl he, fun e he => Or.inl he, fun e he => Or.inl he, rfl⟩
  · rcases hget : dictGet (recordIdOf idField r) ls.prev with _ | ps
    · rw [processRecord_new h0 hget]
      refine ⟨?_, fun e he => Or.inl he, fun e he => Or.inl he, rfl⟩
      intro e he
      rcases List.mem_append.mp he with h1 | h1
      · exact Or.inl h1
      · right
        rw [List.mem_singleton.mp h1]
    · by_cases hck : ps.checksum = calculate_record_checksum r none
      · rw [processRecord_unchanged h0 hget hck]
        refine ⟨fun e he => Or.inl he, fun e he => Or.inl he, ?_, rfl⟩
        intro e he
        rcases List.mem_append.mp he with h1 | h1
        · exact Or.inl h1
        · right
          rw [List.mem_singleton.mp h1]
      · rw [processRecord_updated h0 hget hck]
        refine ⟨fun e he => Or.inl he, ?_, fun e he => Or.inl he, rfl⟩
        intro e he
        rcases List.mem_append.mp he with h1 | h1
        · exact Or.inl h1
        · right
          rw [List.mem_singleton.mp h1]

theorem processRecord_nodup_keys {idField : String} {trackDocNo : Bool} {ts : String}
    (r : Record) {ls : LoopState} (h : (ls.prev.map Prod.fst).Nodup) :
    ((processRecord idField trackDocNo ts ls r).prev.map Prod.fst).Nodup := by
  by_cases h0 : recordIdOf idField r = ""
  · rw [processRecord_skip h0]
    exact h
  · rcases hget : dictGet (recordIdOf idField r) ls.prev with _ | ps
    · rw [processRecord_new h0 hget]
      exact nodup_keys_dictInsert _ _ h
    · by_cases hck : ps.checksum = calculate_record_checksum r none
      · rw [processRecord_unchanged h0 hget hck]
        exact nodup_keys_dictInsert _ _ h
      · rw [processRecord_updated h0 hget hck]
        exact nodup_keys_dictInsert _ _ h

/-! ### Record-loop fold lemmas -/

theorem foldl_prev_frame {idField : String} {trackDocNo : Bool} {ts : String}
    {recs : List Record} {k : String}
    (hk : ∀ r ∈ recs, recordIdOf idField r = "" ∨ recordIdOf idField r ≠ k) :
    ∀ ls0 : LoopState,
      dictGet k ((recs.foldl (processRecord idField trackDocNo ts) ls0)).prev =
        dictGet k ls0.prev := by
  induction recs with
  | nil => intro ls0; rfl
  | cons r t ih =>
    intro ls0
    rw [List.foldl_cons, ih (fun r' hr' => hk r' (List.mem_cons_of_mem _ hr'))]
    rcases hk r (List.mem_cons_self _ _) with h0 | h0
    · rw [processRecord_skip h0]
    · exact processRecord_prev_frame h0 ls0

theorem foldl_ids_mem {idField : String} {trackDocNo : Bool} {ts : String}
    (recs : List Record) :
    ∀ (ls0 : LoopState) (k : String),
      k ∈ ((recs.foldl (processRecord idField trackDocNo ts) ls0)).currentIds ↔
        k ∈ ls0.currentIds ∨ ∃ r ∈ recs, recordIdOf idField r ≠ "" ∧ recordIdOf idField r = k := by
  induction recs with
  | nil => simp
  | cons r t ih =>
    intro ls0 k
    rw [List.foldl_cons, ih, processRecord_currentIds]
    by_cases h0 : recordIdOf idField r = ""
    · rw [if_pos h0]
      constructor
      · rintro (h1 | h1)
        · exact Or.inl h1
        · rcases h1 with ⟨r', hr', hne, he⟩
          exact Or.inr ⟨r', List.mem_cons_of_mem _ hr', hne, he⟩
      · rintro (h1 | ⟨r', hr', hne, he⟩)
        · exact Or.inl h1
        · rcases List.mem_cons.mp hr' with rfl | h2
          · exact absurd h0 hne
          · exact Or.inr ⟨r', h2, hne, he⟩
    · rw [if_neg h0]
      rw [mem_insertId]
      constructor
      · rintro ((h1 | h1) | h1)
        · exact Or.inl h1
        · exact Or.inr ⟨r, List.mem_cons_self _ _, h0, h1.symm⟩
        · rcases h1 with ⟨r', hr', hne, he⟩
          exact Or.inr ⟨r', List.mem_cons_of_mem _ hr', hne, he⟩
      · rintro (h1 | ⟨r', hr', hne, he⟩)
        · exact Or.inl (Or.inl h1)
        · rcases List.mem_cons.mp hr' with rfl | h2
          · exact Or.inl (Or.inr he.symm)
          · exact Or.inr ⟨r', h2, hne, he⟩

theorem foldl_changes_ids {idField : String} {trackDocNo : Bool} {ts : String}
    (recs : List Record) :
    ∀ ls0 : LoopState,
      (∀ e ∈ ((recs.foldl (processRecord idField trackDocNo ts) ls0)).changes.new,
          e ∈ ls0.changes.new ∨ ∃ r ∈ recs, recordIdOf idField r = e.record_id) ∧
      (∀ e ∈ ((recs.foldl (processRecord idField trackDocNo ts) ls0)).changes.updated,
          e ∈ ls0.changes.updated ∨ ∃ r ∈ recs, recordIdOf idField r = e.record_id) ∧
      (∀ e ∈ ((recs.foldl (processRecord idField trackDocNo ts) ls0)).changes.unchanged,
          e ∈ ls0.changes.unchanged ∨ ∃ r ∈ recs, recordIdOf idField r = e.record_id) ∧
      ((recs.foldl (processRecord idField trackDocNo ts) ls0)).changes.deleted =
        ls0.changes.deleted := by
  induction recs with
  | nil =>
    intro ls0
    exact ⟨fun e he => Or.inl he, fun e he => Or.inl he, fun e he => Or.inl he, rfl⟩
  | cons r t ih =>
    intro ls0
    rw [List.foldl_cons]
    obtain ⟨ihn, ihu, ihc, ihd⟩ := ih (processRecord idField trackDocNo ts ls0 r)
    obtain ⟨sn, su, sc, sd⟩ := processRecord_changes_ids r ls0
    refine ⟨?_, ?_, ?_, sd ▸ ihd⟩
    · intro e he
      rcases ihn e he with h1 | h1
      · rcases sn e h1 with h2 | h2
        · exact Or.inl h2
        · exact Or.inr ⟨r, List.mem_cons_self _ _, h2.symm⟩
      · rcases h1 with ⟨r', hr', he'⟩
        exact Or.inr ⟨r', List.mem_cons_of_mem _ hr', he'⟩
    · intro e he
      rcases ihu e he with h1 | h1
      · rcases su e h1 with h2 | h2
        · exact Or.inl h2
        · exact Or.inr ⟨r, List.mem_cons_self _ _, h2.symm⟩
      · rcases h1 with ⟨r', hr', he'⟩
        exact Or.inr ⟨r', List.mem_cons_of_mem _ hr', he'⟩
    · intro e he
      rcases ihc e he with h1 | h1
      · rcases sc e h1 with h2 | h2
        · exact Or.inl h2
        · exact Or.inr ⟨r, List.mem_cons_self _ _, h2.symm⟩
      · rcases h1 with ⟨r', hr', he'⟩
        exact Or.inr ⟨r', List.mem_cons_of_mem _ hr', he'⟩

theorem foldl_checksum_stable {idField : String} {trackDocNo : Bool} {ts : String}
    {recs : List Record} {k : String} {c : String}
    (hc : ∀ r ∈ recs, recordIdOf idField r = k → calculate_record_checksum r none = c) :
    ∀ ls0 : LoopState,
      (dictGet k ls0.prev).map RecordState.checksum = some c →
      (dictGet k ((recs.foldl (processRecord idField trackDocNo ts) ls0)).prev).map
          RecordState.checksum = some c := by
  induction recs with
  | nil => intro ls0 h0; exact h0
  | cons r t ih =>
    intro ls0 h0
    rw [List.foldl_cons]
    apply ih (fun r' hr' => hc r' (List.mem_cons_of_mem _ hr'))
    by_cases hrk : recordIdOf idField r = k
    · by_cases h1 : recordIdOf idField r = ""
      · rw [processRecord_skip h1]
        exact h0
      · rcases hget : dictGet (recordIdOf idField r) ls0.prev with _ | ps
        · rw [hrk] at hget
          rw [hget] at h0
          simp at h0
        · have hps : ps.checksum = c := by
            rw [hrk] at hget
            rw [hget] at h0
            simpa using h0
          have hck : ps.checksum = calculate_record_checksum r none := by
            rw [hps, hc r (List.mem_cons_self _ _) hrk]
          rw [processRecord_unchanged h1 hget hck, ← hrk]
          simp [dictGet_dictInsert_self, ← hck, hps]
    · rw [processRecord_prev_frame hrk]
      exact h0

theorem foldl_checksum_mem {idField : String} {trackDocNo : Bool} {ts : String}
    {recs : List Record} {r : Record} (hr : r ∈ recs)
    (h0 : recordIdOf idField r ≠ "")
    (hc : ∀ r' ∈ recs, recordIdOf idField r' = recordIdOf idField r →
      calculate_record_checksum r' none = calculate_record_checksum r none) :
    ∀ ls0 : LoopState,
      (dictGet (recordIdOf idField r)
          ((recs.foldl (processRecord idField trackDocNo ts) ls0)).prev).map
        RecordState.checksum = some (calculate_record_checksum r none) := by
  induction recs with
  | nil => simp at hr
  | cons r1 t ih =>
    intro ls0
    rw [List.foldl_cons]
    rcases List.mem_cons.mp hr with rfl | hmem
    · apply foldl_checksum_stable
      · intro r' hr' he
        exact hc r' (List.mem_cons_of_mem _ hr') he
      · exact processRecord_checksum_self h0 ls0
    · exact ih hmem (fun r' hr' => hc r' (List.mem_cons_of_mem _ hr')) _

theorem foldl_nodup_keys {idField : String} {trackDocNo : Bool} {ts : String}
    (recs : List Record) :
    ∀ ls0 : LoopState, (ls0.prev.map Prod.fst).Nodup →
      (((recs.foldl (processRecord idField trackDocNo ts) ls0)).prev.map Prod.fst).Nodup := by
  induction recs with
  | nil => intro ls0 h; exact h
  | cons r t ih =>
    intro ls0 h
    rw [List.foldl_cons]
    exact ih _ (processRecord_nodup_keys r h)

theorem foldl_all_unchanged {idField : String} {trackDocNo : Bool} {ts : String}
    (recs : List Record) :
    ∀ ls0 : LoopState,
      (∀ r ∈ recs, recordIdOf idField r ≠ "" →
        (dictGet (recordIdOf idField r) ls0.prev).map RecordState.checksum =
          some (calculate_record_checksum r none)) →
      ((recs.foldl (processRecord idField trackDocNo ts) ls0)).changes.new =
          ls0.changes.new ∧
      ((recs.foldl (processRecord idField trackDocNo ts) ls0)).changes.updated =
          ls0.changes.updated ∧
      ((recs.foldl (processRecord idField trackDocNo ts) ls0)).changes.deleted =
          ls0.changes.deleted ∧
      ((recs.foldl (processRecord idField trackDocNo ts) ls0)).changes.unchanged =
          ls0.changes.unchanged ++
            (recs.filter (fun r => !(recordIdOf idField r == ""))).map
              (fun r => { record := r, change_type := ChangeType.UNCHANGED,
                          record_id := recordIdOf idField r }) ∧
      (∀ p ∈ ((recs.foldl (processRecord idField trackDocNo ts) ls0)).prev,
        p ∈ ls0.prev ∨
          p.1 ∈ ((recs.foldl (processRecord idField trackDocNo ts) ls0)).currentIds) := by
  induction recs with
  | nil =>
    intro ls0 _
    exact ⟨rfl, rfl, rfl, by simp, fun p hp => Or.inl hp⟩
  | cons r t ih =>
    intro ls0 hst
    rw [List.foldl_cons]
    by_cases h0 : recordIdOf idField r = ""
    · rw [processRecord_skip h0]
      obtain ⟨e1, e2, e3, e4, e5⟩ :=
        ih ls0 (fun r' hr' => hst r' (List.mem_cons_of_mem _ hr'))
      refine ⟨e1, e2, e3, ?_, e5⟩
      rw [e4, List.filter_cons]
      simp [h0]
    · rcases hget : dictGet (recordIdOf idField r) ls0.prev with _ | ps
      · exact absurd (hst r (List.mem_cons_self _ _) h0) (by rw [hget]; simp)
      · have hck : ps.checksum = calculate_record_checksum r none := by
          have := hst r (List.mem_cons_self _ _) h0
          rw [hget] at this
          simpa using this
        rw [processRecord_unchanged h0 hget hck]
        set ls1 : LoopState :=
          { prev := dictInsert (recordIdOf idField r) { ps with last_seen := ts } ls0.prev
            currentIds := insertId (recordIdOf idField r) ls0.currentIds
            maxDocNo := docNoUpdate trackDocNo r ls0.maxDocNo
            changes := { ls0.changes with
              unchanged := ls0.changes.unchanged ++
                [{ record := r, change_type := .UNCHANGED,
                   record_id := recordIdOf idField r }] } } with hls1
        have hst1 : ∀ r' ∈ t, recordIdOf idField r' ≠ "" →
            (dictGet (recordIdOf idField r') ls1.prev).map RecordState.checksum =
              some (calculate_record_checksum r' none) := by
          intro r' hr' h0'
          by_cases hsame : recordIdOf idField r' = recordIdOf idField r
          · have hv : dictGet (recordIdOf idField r') ls1.prev =
                some { ps with last_seen := ts } := by
              rw [hls1, hsame]
              exact dictGet_dictInsert_self _ _ _
            have hother := hst r' (List.mem_cons_of_mem _ hr') h0'
            rw [hsame, hget] at hother
            rw [hv]
            simpa using hother
          · have hv : dictGet (recordIdOf idField r') ls1.prev =
                dictGet (recordIdOf idField r') ls0.prev := by
              rw [hls1]
              exact dictGet_dictInsert_ne (Ne.symm hsame) _ _
            rw [hv]
            exact hst r' (List.mem_cons_of_mem _ hr') h0'
        obtain ⟨e1, e2, e3, e4, e5⟩ := ih ls1 hst1
        refine ⟨by rw [e1], by rw [e2], by rw [e3], ?_, ?_⟩
        · rw [e4, hls1]
          rw [List.filter_cons]
          simp [h0]
        · intro p hp
          rcases e5 p hp with h1 | h1
          · rcases mem_dictInsert h1 with h2 | h2
            · exact Or.inl h2
            · right
              rw [h2]
              have : (recordIdOf idField r) ∈ (t.foldl (processRecord idField trackDocNo ts) ls1).currentIds := by
                rw [foldl_ids_mem]
                left
                rw [hls1]
                exact mem_insertId.mpr (Or.inr rfl)
              exact this
          · exact Or.inr h1

/-! ### Deleted-scan lemmas -/

theorem boolOr_of_not_and {c d : Bool} (h : (!c && !d) ≠ true) : c = true ∨ d = true := by
  cases c <;> cases d <;> simp_all

theorem markDeleted_fst_eq_map (ids : List String) (l : List (String × RecordState)) :
    (markDeleted ids l).1 = l.map (fun p =>
      (p.1, if !(ids.contains p.1) && !p.2.deleted then { p.2 with deleted := true }
            else p.2)) := by
  induction l with
  | nil => rfl
  | cons p rest ih =>
    obtain ⟨k, st⟩ := p
    simp only [markDeleted, List.map_cons]
    by_cases h : (!(ids.contains k) && !st.deleted) = true
    · rw [if_pos h, if_pos h]
      exact congrArg _ ih
    · rw [if_neg h, if_neg h]
      exact congrArg _ ih

theorem markDeleted_get (ids : List String) (k : String) (l : List (String × RecordState)) :
    dictGet k (markDeleted ids l).1 =
      (dictGet k l).map (fun st =>
        if !(ids.contains k) && !st.deleted then { st with deleted := true } else st) := by
  rw [markDeleted_fst_eq_map]
  exact dictGet_map_val (fun a st =>
    if !(ids.contains a) && !st.deleted then { st with deleted := true } else st) k l

theorem markDeleted_get_checksum (ids : List String) (k : String)
    (l : List (String × RecordState)) :
    (dictGet k (markDeleted ids l).1).map RecordState.checksum =
      (dictGet k l).map RecordState.checksum := by
  rw [markDeleted_get]
  rcases dictGet k l with _ | st
  · rfl
  · show (some (if (!(ids.contains k) && !st.deleted) = true
        then { st with deleted := true } else st)).map RecordState.checksum =
      (some st).map RecordState.checksum
    by_cases h : (!(ids.contains k) && !st.deleted) = true
    · rw [if_pos h]
      rfl
    · rw [if_neg h]

theorem markDeleted_nil_of {ids : List String} {l : List (String × RecordState)}
    (h : ∀ p ∈ l, ids.contains p.1 = true ∨ p.2.deleted = true) :
    markDeleted ids l = (l, []) := by
  induction l with
  | nil => rfl
  | cons p rest ih =>
    obtain ⟨k, st⟩ := p
    have hcond : ¬((!(ids.contains k) && !st.deleted) = true) := by
      intro hcontra
      rw [Bool.and_eq_true, Bool.not_eq_true', Bool.not_eq_true'] at hcontra
      rcases h (k, st) (List.mem_cons_self _ _) with h1 | h1
      · have h1' : ids.contains k = true := h1
        rw [hcontra.1] at h1'
        exact Bool.false_ne_true h1'
      · have h1' : st.deleted = true := h1
        rw [hcontra.2] at h1'
        exact Bool.false_ne_true h1'
    have ih' := ih (fun p hp => h p (List.mem_cons_of_mem _ hp))
    simp only [markDeleted]
    rw [if_neg hcond, ih']

theorem markDeleted_post {ids : List String} {l : List (String × RecordState)} :
    ∀ p ∈ (markDeleted ids l).1, ids.contains p.1 = true ∨ p.2.deleted = true := by
  intro p hp
  rw [markDeleted_fst_eq_map] at hp
  rcases List.mem_map.mp hp with ⟨q, _, hq1⟩
  subst hq1
  by_cases h : (!(ids.contains q.1) && !q.2.deleted) = true
  · right
    have hval : (if (!(ids.contains q.1) && !q.2.deleted) = true
        then { q.2 with deleted := true } else q.2).deleted = true := by
      rw [if_pos h]
    exact hval
  · rcases boolOr_of_not_and h with hc | hd
    · exact Or.inl hc
    · right
      have hval : (if (!(ids.contains q.1) && !q.2.deleted) = true
          then { q.2 with deleted := true } else q.2).deleted = true := by
        rw [if_neg h]
        exact hd
      exact hval

theorem mem_markDeleted_entries {ids : List String} {l : List (String × RecordState)}
    {e : DeletedEntry} (he : e ∈ (markDeleted ids l).2) :
    ∃ st : RecordState, (e.record_id, st) ∈ l ∧ ids.contains e.record_id = false ∧
      st.deleted = false ∧
      e = { record_id := e.record_id, change_type := ChangeType.DELETED,
            last_state := { st with deleted := true } } := by
  induction l with
  | nil => simp [markDeleted] at he
  | cons p rest ih =>
    obtain ⟨k, st⟩ := p
    simp only [markDeleted] at he
    by_cases h : (!(ids.contains k) && !st.deleted) = true
    · rw [if_pos h] at he
      rcases List.mem_cons.mp he with h1 | h1
      · have hsplit := h
        rw [Bool.and_eq_true, Bool.not_eq_true', Bool.not_eq_true'] at hsplit
        have hrid : e.record_id = k := by rw [h1]
        refine ⟨st, ?_, ?_, hsplit.2, ?_⟩
        · rw [hrid]
          exact List.mem_cons_self _ _
        · rw [hrid]
          exact hsplit.1
        · rw [h1]
      · rcases ih h1 with ⟨st', hmem, hcont, hdel, he'⟩
        exact ⟨st', List.mem_cons_of_mem _ hmem, hcont, hdel, he'⟩
    · rw [if_neg h] at he
      rcases ih he with ⟨st', hmem, hcont, hdel, he'⟩
      exact ⟨st', List.mem_cons_of_mem _ hmem, hcont, hdel, he'⟩

/-! ### `detect_changes` unfolding helpers -/

theorem get_file_state_of_some {sd : StateData} {fn : String} {fs : FileState}
    (hfs : dictGet fn sd = some fs) : get_file_state sd fn = (fs, sd) := by
  unfold get_file_state
  rw [hfs]

theorem detect_changes_success_eq (sd : StateData) (fn idf : String) (tdn : Bool)
    (ts mt : String) (recs : List Record) :
    detect_changes sd fn idf tdn ts (some recs) (some mt) true =
      { changes := some { (recs.foldl (processRecord idf tdn ts)
            { prev := (get_file_state sd fn).1.records, currentIds := [],
              maxDocNo := (get_file_state sd fn).1.last_doc_no,
              changes := emptyChanges }).changes with
          deleted := (recs.foldl (processRecord idf tdn ts)
            { prev := (get_file_state sd fn).1.records, currentIds := [],
              maxDocNo := (get_file_state sd fn).1.last_doc_no,
              changes := emptyChanges }).changes.deleted ++
            (markDeleted (recs.foldl (processRecord idf tdn ts)
            { prev := (get_file_state sd fn).1.records, currentIds := [],
              maxDocNo := (get_file_state sd fn).1.last_doc_no,
              changes := emptyChanges }).currentIds
              (recs.foldl (processRecord idf tdn ts)
            { prev := (get_file_state sd fn).1.records, currentIds := [],
              maxDocNo := (get_file_state sd fn).1.last_doc_no,
              changes := emptyChanges }).prev).2 }
        mem := dictInsert fn { (get_file_state sd fn).1 with
            last_processed := some ts
            last_doc_no := (recs.foldl (processRecord idf tdn ts)
              { prev := (get_file_state sd fn).1.records, currentIds := [],
                maxDocNo := (get_file_state sd fn).1.last_doc_no,
                changes := emptyChanges }).maxDocNo
            records := (markDeleted (recs.foldl (processRecord idf tdn ts)
              { prev := (get_file_state sd fn).1.records, currentIds := [],
                maxDocNo := (get_file_state sd fn).1.last_doc_no,
                changes := emptyChanges }).currentIds
                (recs.foldl (processRecord idf tdn ts)
              { prev := (get_file_state sd fn).1.records, currentIds := [],
                maxDocNo := (get_file_state sd fn).1.last_doc_no,
                changes := emptyChanges }).prev).1
            last_modified := some mt } (get_file_state sd fn).2
        saved := true } := rfl

/-! ### File-system lemmas for the state store -/

theorem dictGet_dictRemove_self {α : Type} (k : String) (l : List (String × α)) :
    dictGet k (dictRemove k l) = none := by
  induction l with
  | nil => rfl
  | cons p rest ih =>
    obtain ⟨a, b⟩ := p
    by_cases h : a = k
    · subst h
      simp [dictRemove, dictGet] at ih ⊢
      exact ih
    · simp only [dictRemove, List.filter_cons] at ih ⊢
      have hb : (!(a == k)) = true := by simp [h]
      rw [if_pos hb]
      simp only [dictGet, if_neg h]
      exact ih

theorem dictGet_dictRemove_ne {α : Type} {k k' : String} (h : k' ≠ k)
    (l : List (String × α)) : dictGet k (dictRemove k' l) = dictGet k l := by
  induction l with
  | nil => rfl
  | cons p rest ih =>
    obtain ⟨a, b⟩ := p
    by_cases h1 : a = k'
    · simp only [dictRemove, List.filter_cons] at ih ⊢
      rw [if_neg (by simp [h1])]
      rw [ih]
      have h2 : a ≠ k := by rw [h1]; exact h
      simp [dictGet, h2]
    · have hb : (!(a == k')) = true := by simp [h1]
      simp only [dictRemove, List.filter_cons] at ih ⊢
      rw [if_pos hb]
      simp only [dictGet]
      by_cases h2 : a = k
      · rw [if_pos h2, if_pos h2]
      · rw [if_neg h2, if_neg h2]
        exact ih

theorem tmp_ne_stateFile (s : String) : s ++ ".tmp" ≠ s := by
  intro he
  have hlen := congrArg String.length he
  rw [String.length_append] at hlen
  have h4 : (".tmp" : String).length = 4 := rfl
  omega

/-- Claim C4: `save_state` is atomic — on every save attempt that does not
run to completion (an exception during the temp-file write, or a crash
between the finished temp write and the `os.replace` promotion), the
canonical state file afterwards holds exactly its previous contents; and on
a failed (raising) save the temporary file has been removed and the error
re-raised. -/
theorem save_state_atomic (fs : FileSystem) (stateFile contents : String)
    (o : SaveOutcome) (h : o ≠ SaveOutcome.success) :
    dictGet stateFile (save_state fs stateFile contents o).fs = dictGet stateFile fs ∧
    (∀ p : Option String, o = SaveOutcome.writeFails p →
      dictGet (stateFile ++ ".tmp") (save_state fs stateFile contents o).fs = none ∧
      (save_state fs stateFile contents o).raised = true) := by
  cases o with
  | success => exact absurd rfl h
  | writeFails p =>
    refine ⟨?_, ?_⟩
    · show dictGet stateFile (dictRemove (stateFile ++ ".tmp") _) = dictGet stateFile fs
      rw [dictGet_dictRemove_ne (tmp_ne_stateFile stateFile)]
      cases p with
      | none => rfl
      | some partialContents =>
        exact dictGet_dictInsert_ne (tmp_ne_stateFile stateFile) _ _
    · intro p' _
      exact ⟨dictGet_dictRemove_self _ _, rfl⟩
  | crashBeforeRename =>
    refine ⟨?_, ?_⟩
    · exact dictGet_dictInsert_ne (tmp_ne_stateFile stateFile) _ _
    · intro p' hp'
      cases hp'

/-- Witness for C4: a failing temp-write against a store holding `"old"`
leaves the canonical file at `"old"`, removes the temp file and raises. -/
theorem save_state_atomic_witness :
    (SaveOutcome.writeFails (some "half") ≠ SaveOutcome.success) ∧
    (dictGet "state.json"
        (save_state [("state.json", "old")] "state.json" "new"
          (SaveOutcome.writeFails (some "half"))).fs =
      dictGet "state.json" [("state.json", "old")] ∧
    (∀ p : Option String,
      SaveOutcome.writeFails (some "half") = SaveOutcome.writeFails p →
      dictGet ("state.json" ++ ".tmp")
          (save_state [("state.json", "old")] "state.json" "new"
            (SaveOutcome.writeFails (some "half"))).fs = none ∧
      (save_state [("state.json", "old")] "state.json" "new"
          (SaveOutcome.writeFails (some "half"))).raised = true)) :=
  ⟨by decide, save_state_atomic _ _ _ _ (by decide)⟩

/-- Claim C9: a snapshot record whose key field is missing or maps to the
empty string is skipped entirely — the whole `detect_changes` result
(change lists, in-memory state, save behaviour) is as if the record were
not in the snapshot, and the pass does not fail. -/
theorem detect_changes_skips_unkeyed (sd : StateData) (fn idf : String) (tdn : Bool)
    (ts : String) (l1 l2 : List Record) (r0 : Record) (mt : Option String)
    (saveOk : Bool) (h : recordIdOf idf r0 = "") :
    detect_changes sd fn idf tdn ts (some (l1 ++ r0 :: l2)) mt saveOk =
      detect_changes sd fn idf tdn ts (some (l1 ++ l2)) mt saveOk := by
  simp only [detect_changes]
  rw [List.foldl_append, List.foldl_append, List.foldl_cons, processRecord_skip h]

/-- Witness for C9: a record with an empty `PART_NO` in the middle of a
snapshot changes nothing. -/
theorem detect_changes_skips_unkeyed_witness :
    recordIdOf "PART_NO" [("PART_NO", Value.vStr ""), ("QTY", Value.vStr "7")] = "" ∧
    detect_changes [] "STOCK.DBF" "PART_NO" false "t1"
        (some ([[("PART_NO", Value.vStr "A")]] ++
          [("PART_NO", Value.vStr ""), ("QTY", Value.vStr "7")] :: []))
        (some "m1") true =
      detect_changes [] "STOCK.DBF" "PART_NO" false "t1"
        (some ([[("PART_NO", Value.vStr "A")]] ++ [])) (some "m1") true :=
  ⟨by decide,
    detect_changes_skips_unkeyed [] "STOCK.DBF" "PART_NO" false "t1" _ _ _ _ _ (by decide)⟩

/-- Claim C10: when the single snapshot record carrying a prior key has a
fingerprint equal to the stored one, the pass rewrites that entry with only
`last_seen` changed — `record_id`, `checksum`, `doc_no` and in particular the
`deleted` flag (even if `true`) are preserved; when the fingerprint differs,
the entry is replaced by a fresh `RecordState` (via `mkRecordState`), whose
`deleted` field is `false`. -/
theorem detect_changes_unchanged_updates_only_last_seen
    (sd : StateData) (fn idf : String) (tdn : Bool) (ts mt : String)
    (l1 l2 : List Record) (r : Record) (fs : FileState) (st0 : RecordState)
    (hfs : dictGet fn sd = some fs)
    (hget : dictGet (recordIdOf idf r) fs.records = some st0)
    (hrid : recordIdOf idf r ≠ "")
    (honce1 : ∀ r' ∈ l1, recordIdOf idf r' ≠ recordIdOf idf r)
    (honce2 : ∀ r' ∈ l2, recordIdOf idf r' ≠ recordIdOf idf r) :
    ∃ fs' : FileState,
      dictGet fn (detect_changes sd fn idf tdn ts (some (l1 ++ r :: l2)) (some mt) true).mem
        = some fs' ∧
      dictGet (recordIdOf idf r) fs'.records =
        some (if calculate_record_checksum r none = st0.checksum
          then { st0 with last_seen := ts }
          else mkRecordState (recordIdOf idf r) (calculate_record_checksum r none) ts r) := by
  have hframe1 : ∀ r' ∈ l1, recordIdOf idf r' = "" ∨ recordIdOf idf r' ≠ recordIdOf idf r :=
    fun r' hr' => Or.inr (honce1 r' hr')
  have hframe2 : ∀ r' ∈ l2, recordIdOf idf r' = "" ∨ recordIdOf idf r' ≠ recordIdOf idf r :=
    fun r' hr' => Or.inr (honce2 r' hr')
  have h1 : dictGet (recordIdOf idf r)
      (((l1 ++ r :: l2).foldl (processRecord idf tdn ts)
        { prev := fs.records, currentIds := [], maxDocNo := fs.last_doc_no,
          changes := emptyChanges }).prev) =
      some (if calculate_record_checksum r none = st0.checksum
        then { st0 with last_seen := ts }
        else mkRecordState (recordIdOf idf r) (calculate_record_checksum r none) ts r) := by
    rw [List.foldl_append, List.foldl_cons]
    have hl1 : dictGet (recordIdOf idf r)
        ((l1.foldl (processRecord idf tdn ts)
          { prev := fs.records, currentIds := [], maxDocNo := fs.last_doc_no,
            changes := emptyChanges }).prev) = some st0 := by
      rw [foldl_prev_frame hframe1]
      exact hget
    by_cases hck : calculate_record_checksum r none = st0.checksum
    · rw [if_pos hck]
      rw [processRecord_unchanged hrid hl1 hck.symm]
      rw [foldl_prev_frame hframe2]
      exact dictGet_dictInsert_self _ _ _
    · rw [if_neg hck]
      rw [processRecord_updated hrid hl1 (fun he => hck he.symm)]
      rw [foldl_prev_frame hframe2]
      exact dictGet_dictInsert_self _ _ _
  have hmemids : recordIdOf idf r ∈
      (((l1 ++ r :: l2).foldl (processRecord idf tdn ts)
        { prev := fs.records, currentIds := [], maxDocNo := fs.last_doc_no,
          changes := emptyChanges })).currentIds := by
    rw [foldl_ids_mem]
    exact Or.inr ⟨r, List.mem_append.mpr (Or.inr (List.mem_cons_self _ _)), hrid, rfl⟩
  have hcont : (((l1 ++ r :: l2).foldl (processRecord idf tdn ts)
      { prev := fs.records, currentIds := [], maxDocNo := fs.last_doc_no,
        changes := emptyChanges })).currentIds.contains (recordIdOf idf r) = true :=
    List.elem_iff.mpr hmemids
  have hmain : dictGet (recordIdOf idf r)
      (markDeleted
        (((l1 ++ r :: l2).foldl (processRecord idf tdn ts)
          { prev := fs.records, currentIds := [], maxDocNo := fs.last_doc_no,
            changes := emptyChanges })).currentIds
        (((l1 ++ r :: l2).foldl (processRecord idf tdn ts)
          { prev := fs.records, currentIds := [], maxDocNo := fs.last_doc_no,
            changes := emptyChanges })).prev).1 =
      some (if calculate_record_checksum r none = st0.checksum
        then { st0 with last_seen := ts }
        else mkRecordState (recordIdOf idf r) (calculate_record_checksum r none) ts r) := by
    rw [markDeleted_get, h1]
    have hb : (!((((l1 ++ r :: l2).foldl (processRecord idf tdn ts)
        { prev := fs.records, currentIds := [], maxDocNo := fs.last_doc_no,
          changes := emptyChanges })).currentIds.contains (recordIdOf idf r)) &&
        !(if calculate_record_checksum r none = st0.checksum
          then { st0 with last_seen := ts }
          else mkRecordState (recordIdOf idf r) (calculate_record_checksum r none) ts r).deleted)
        = false := by
      rw [hcont]
      rfl
    show some (if (!((((l1 ++ r :: l2).foldl (processRecord idf tdn ts)
        { prev := fs.records, currentIds := [], maxDocNo := fs.last_doc_no,
          changes := emptyChanges })).currentIds.contains (recordIdOf idf r)) &&
        !(if calculate_record_checksum r none = st0.checksum
          then { st0 with last_seen := ts }
          else mkRecordState (recordIdOf idf r) (calculate_record_checksum r none) ts r).deleted)
        = true
      then { (if calculate_record_checksum r none = st0.checksum
          then { st0 with last_seen := ts }
          else mkRecordState (recordIdOf idf r) (calculate_record_checksum r none) ts r)
          with deleted := true }
      else (if calculate_record_checksum r none = st0.checksum
          then { st0 with last_seen := ts }
          else mkRecordState (recordIdOf idf r) (calculate_record_checksum r none) ts r)) =
      some (if calculate_record_checksum r none = st0.checksum
        then { st0 with last_seen := ts }
        else mkRecordState (recordIdOf idf r) (calculate_record_checksum r none) ts r)
    rw [if_neg (by rw [hb]; exact Bool.false_ne_true)]
  rw [detect_changes_success_eq, get_file_state_of_some hfs]
  exact ⟨_, dictGet_dictInsert_self _ _ _, hmain⟩

/-- Witness for C10: a `deleted=true` entry whose key reappears with
identical content keeps `deleted=true` and only `last_seen` moves. -/
theorem detect_changes_unchanged_updates_only_last_seen_witness :
    dictGet "S.DBF" [("S.DBF",
      ({ records := [("A", { record_id := "A", checksum := calculate_record_checksum [("PART_NO", Value.vStr "A")] none, last_seen := "t0", deleted := true })] } : FileState))] =
      some ({ records := [("A", { record_id := "A", checksum := calculate_record_checksum [("PART_NO", Value.vStr "A")] none, last_seen := "t0", deleted := true })] } : FileState) ∧
    recordIdOf "PART_NO" [("PART_NO", Value.vStr "A")] ≠ "" ∧
    (∃ fs' : FileState,
      dictGet "S.DBF" (detect_changes [("S.DBF",
        ({ records := [("A", { record_id := "A", checksum := calculate_record_checksum [("PART_NO", Value.vStr "A")] none, last_seen := "t0", deleted := true })] } : FileState))]
        "S.DBF" "PART_NO" false "t1" (some ([] ++ [("PART_NO", Value.vStr "A")] :: []))
        (some "m1") true).mem = some fs' ∧
      dictGet (recordIdOf "PART_NO" [("PART_NO", Value.vStr "A")]) fs'.records =
        some (if calculate_record_checksum [("PART_NO", Value.vStr "A")] none =
            ({ record_id := "A", checksum := calculate_record_checksum [("PART_NO", Value.vStr "A")] none, last_seen := "t0", deleted := true } : RecordState).checksum
          then { ({ record_id := "A", checksum := calculate_record_checksum [("PART_NO", Value.vStr "A")] none, last_seen := "t0", deleted := true } : RecordState) with last_seen := "t1" }
          else mkRecordState (recordIdOf "PART_NO" [("PART_NO", Value.vStr "A")])
            (calculate_record_checksum [("PART_NO", Value.vStr "A")] none) "t1"
            [("PART_NO", Value.vStr "A")])) :=
  ⟨by decide, by decide,
    detect_changes_unchanged_updates_only_last_seen
      [("S.DBF", ({ records := [("A", { record_id := "A", checksum := calculate_record_checksum [("PART_NO", Value.vStr "A")] none, last_seen := "t0", deleted := true })] } : FileState))]
      "S.DBF" "PART_NO" false "t1" "m1" [] [] [("PART_NO", Value.vStr "A")]
      ({ records := [("A", { record_id := "A", checksum := calculate_record_checksum [("PART_NO", Value.vStr "A")] none, last_seen := "t0", deleted := true })] } : FileState)
      ({ record_id := "A", checksum := calculate_record_checksum [("PART_NO", Value.vStr "A")] none, last_seen := "t0", deleted := true } : RecordState)
      (by decide) (by decide) (by decide) (by decide) (by decide)⟩

/-- Claim C8: a delete event fires at most once per key.  In a successful
pass, every Deleted entry stems from a prior key that is not carried by any
keyed record of the current snapshot and was not already marked deleted; the
entry is then marked `deleted=true` in place and retained.  Conversely a
prior key already marked `deleted=true` that stays absent is classified in
none of the four lists and its entry is left exactly as it was. -/
theorem detect_changes_delete_fires_once
    (sd : StateData) (fn idf : String) (tdn : Bool) (ts mt : String)
    (snap : List Record) (fs : FileState)
    (hfs : dictGet fn sd = some fs)
    (hnodup : (fs.records.map Prod.fst).Nodup) :
    ∃ ch : Changes,
      (detect_changes sd fn idf tdn ts (some snap) (some mt) true).changes = some ch ∧
      (∀ e ∈ ch.deleted, ∃ st1 : RecordState,
        dictGet e.record_id fs.records = some st1 ∧ st1.deleted = false ∧
        (∀ r ∈ snap, recordIdOf idf r ≠ "" → recordIdOf idf r ≠ e.record_id) ∧
        (∃ fs' : FileState,
          dictGet fn (detect_changes sd fn idf tdn ts (some snap) (some mt) true).mem =
            some fs' ∧
          dictGet e.record_id fs'.records = some { st1 with deleted := true })) ∧
      (∀ (k : String) (st0 : RecordState),
        dictGet k fs.records = some st0 → st0.deleted = true →
        (∀ r ∈ snap, recordIdOf idf r ≠ k) →
        (∀ e ∈ ch.new, e.record_id ≠ k) ∧
        (∀ e ∈ ch.updated, e.record_id ≠ k) ∧
        (∀ e ∈ ch.unchanged, e.record_id ≠ k) ∧
        (∀ e ∈ ch.deleted, e.record_id ≠ k) ∧
        (∃ fs' : FileState,
          dictGet fn (detect_changes sd fn idf tdn ts (some snap) (some mt) true).mem =
            some fs' ∧
          dictGet k fs'.records = some st0)) := by
  have hres : detect_changes sd fn idf tdn ts (some snap) (some mt) true =
      { changes := some { (snap.foldl (processRecord idf tdn ts) { prev := fs.records, currentIds := [], maxDocNo := fs.last_doc_no, changes := emptyChanges }).changes with deleted := (snap.foldl (processRecord idf tdn ts) { prev := fs.records, currentIds := [], maxDocNo := fs.last_doc_no, changes := emptyChanges }).changes.deleted ++ (markDeleted (snap.foldl (processRecord idf tdn ts) { prev := fs.records, currentIds := [], maxDocNo := fs.last_doc_no, changes := emptyChanges }).currentIds (snap.foldl (processRecord idf tdn ts) { prev := fs.records, currentIds := [], maxDocNo := fs.last_doc_no, changes := emptyChanges }).prev).2 }
        mem := dictInsert fn { fs with last_processed := some ts, last_doc_no := (snap.foldl (processRecord idf tdn ts) { prev := fs.records, currentIds := [], maxDocNo := fs.last_doc_no, changes := emptyChanges }).maxDocNo, records := (markDeleted (snap.foldl (processRecord idf tdn ts) { prev := fs.records, currentIds := [], maxDocNo := fs.last_doc_no, changes := emptyChanges }).currentIds (snap.foldl (processRecord idf tdn ts) { prev := fs.records, currentIds := [], maxDocNo := fs.last_doc_no, changes := emptyChanges }).prev).1, last_modified := some mt } sd
        saved := true } := by
    rw [detect_changes_success_eq, get_file_state_of_some hfs]
  rw [hres]
  have hnodupF : (((snap.foldl (processRecord idf tdn ts) { prev := fs.records, currentIds := [], maxDocNo := fs.last_doc_no, changes := emptyChanges })).prev.map Prod.fst).Nodup :=
    foldl_nodup_keys snap { prev := fs.records, currentIds := [], maxDocNo := fs.last_doc_no, changes := emptyChanges } hnodup
  obtain ⟨cn, cu, cc, cd⟩ := foldl_changes_ids snap { prev := fs.records, currentIds := [], maxDocNo := fs.last_doc_no, changes := emptyChanges }
  have hd0 : ((snap.foldl (processRecord idf tdn ts) { prev := fs.records, currentIds := [], maxDocNo := fs.last_doc_no, changes := emptyChanges })).changes.deleted = ([] : List DeletedEntry) := cd
  refine ⟨{ (snap.foldl (processRecord idf tdn ts) { prev := fs.records, currentIds := [], maxDocNo := fs.last_doc_no, changes := emptyChanges }).changes with deleted := (snap.foldl (processRecord idf tdn ts) { prev := fs.records, currentIds := [], maxDocNo := fs.last_doc_no, changes := emptyChanges }).changes.deleted ++ (markDeleted (snap.foldl (processRecord idf tdn ts) { prev := fs.records, currentIds := [], maxDocNo := fs.last_doc_no, changes := emptyChanges }).currentIds (snap.foldl (processRecord idf tdn ts) { prev := fs.records, currentIds := [], maxDocNo := fs.last_doc_no, changes := emptyChanges }).prev).2 }, rfl, ?_, ?_⟩
  · -- every Deleted entry: absent, previously not deleted, then marked in place
    intro e he
    have he1 : e ∈ ((snap.foldl (processRecord idf tdn ts) { prev := fs.records, currentIds := [], maxDocNo := fs.last_doc_no, changes := emptyChanges })).changes.deleted ++ (markDeleted (snap.foldl (processRecord idf tdn ts) { prev := fs.records, currentIds := [], maxDocNo := fs.last_doc_no, changes := emptyChanges }).currentIds (snap.foldl (processRecord idf tdn ts) { prev := fs.records, currentIds := [], maxDocNo := fs.last_doc_no, changes := emptyChanges }).prev).2 := he
    rw [hd0] at he1
    have he2 : e ∈ (markDeleted (snap.foldl (processRecord idf tdn ts) { prev := fs.records, currentIds := [], maxDocNo := fs.last_doc_no, changes := emptyChanges }).currentIds (snap.foldl (processRecord idf tdn ts) { prev := fs.records, currentIds := [], maxDocNo := fs.last_doc_no, changes := emptyChanges }).prev).2 := by simpa using he1
    obtain ⟨st1, hmem, hcont, hdel1, _⟩ := mem_markDeleted_entries he2
    have hnotin : e.record_id ∉ ((snap.foldl (processRecord idf tdn ts) { prev := fs.records, currentIds := [], maxDocNo := fs.last_doc_no, changes := emptyChanges })).currentIds := by
      intro hin
      have h1 := contains_iff.mpr hin
      rw [hcont] at h1
      exact Bool.false_ne_true h1
    have habs : ∀ r ∈ snap, recordIdOf idf r ≠ "" → recordIdOf idf r ≠ e.record_id := by
      intro r hr h0 heq
      apply hnotin
      rw [foldl_ids_mem]
      exact Or.inr ⟨r, hr, h0, heq⟩
    have hframe : ∀ r ∈ snap,
        recordIdOf idf r = "" ∨ recordIdOf idf r ≠ e.record_id := by
      intro r hr
      by_cases h0 : recordIdOf idf r = ""
      · exact Or.inl h0
      · exact Or.inr (habs r hr h0)
    have hget1 : dictGet e.record_id ((snap.foldl (processRecord idf tdn ts) { prev := fs.records, currentIds := [], maxDocNo := fs.last_doc_no, changes := emptyChanges })).prev = some st1 :=
      dictGet_eq_some_of_mem_nodup hmem hnodupF
    have hget0 : dictGet e.record_id fs.records = some st1 := by
      have hfr := @foldl_prev_frame idf tdn ts snap e.record_id hframe { prev := fs.records, currentIds := [], maxDocNo := fs.last_doc_no, changes := emptyChanges }
      rw [hget1] at hfr
      exact hfr.symm
    have hb : (!(((snap.foldl (processRecord idf tdn ts) { prev := fs.records, currentIds := [], maxDocNo := fs.last_doc_no, changes := emptyChanges })).currentIds.contains e.record_id) && !st1.deleted) = true := by
      rw [hcont, hdel1]
      rfl
    have hv : dictGet e.record_id (markDeleted (snap.foldl (processRecord idf tdn ts) { prev := fs.records, currentIds := [], maxDocNo := fs.last_doc_no, changes := emptyChanges }).currentIds (snap.foldl (processRecord idf tdn ts) { prev := fs.records, currentIds := [], maxDocNo := fs.last_doc_no, changes := emptyChanges }).prev).1 = some { st1 with deleted := true } := by
      rw [markDeleted_get, hget1]
      show some (if (!(((snap.foldl (processRecord idf tdn ts) { prev := fs.records, currentIds := [], maxDocNo := fs.last_doc_no, changes := emptyChanges })).currentIds.contains e.record_id) && !st1.deleted) = true
          then { st1 with deleted := true } else st1) = some { st1 with deleted := true }
      rw [if_pos hb]
    exact ⟨st1, hget0, hdel1, habs, _, dictGet_dictInsert_self _ _ _, hv⟩
  · -- an already-deleted, still-absent key is classified nowhere and untouched
    intro k st0 hk hdel habs
    have hframe : ∀ r ∈ snap, recordIdOf idf r = "" ∨ recordIdOf idf r ≠ k := by
      intro r hr
      by_cases h0 : recordIdOf idf r = ""
      · exact Or.inl h0
      · exact Or.inr (habs r hr)
    have hfl : dictGet k ((snap.foldl (processRecord idf tdn ts) { prev := fs.records, currentIds := [], maxDocNo := fs.last_doc_no, changes := emptyChanges })).prev = some st0 := by
      rw [foldl_prev_frame hframe]
      exact hk
    refine ⟨?_, ?_, ?_, ?_, ?_⟩
    · intro e he heq
      rcases cn e he with h1 | ⟨r, hr, hre⟩
      · simp [emptyChanges] at h1
      · rw [heq] at hre
        exact habs r hr hre
    · intro e he heq
      rcases cu e he with h1 | ⟨r, hr, hre⟩
      · simp [emptyChanges] at h1
      · rw [heq] at hre
        exact habs r hr hre
    · intro e he heq
      rcases cc e he with h1 | ⟨r, hr, hre⟩
      · simp [emptyChanges] at h1
      · rw [heq] at hre
        exact habs r hr hre
    · intro e he heq
      have he1 : e ∈ ((snap.foldl (processRecord idf tdn ts) { prev := fs.records, currentIds := [], maxDocNo := fs.last_doc_no, changes := emptyChanges })).changes.deleted ++ (markDeleted (snap.foldl (processRecord idf tdn ts) { prev := fs.records, currentIds := [], maxDocNo := fs.last_doc_no, changes := emptyChanges }).currentIds (snap.foldl (processRecord idf tdn ts) { prev := fs.records, currentIds := [], maxDocNo := fs.last_doc_no, changes := emptyChanges }).prev).2 := he
      rw [hd0] at he1
      have he2 : e ∈ (markDeleted (snap.foldl (processRecord idf tdn ts) { prev := fs.records, currentIds := [], maxDocNo := fs.last_doc_no, changes := emptyChanges }).currentIds (snap.foldl (processRecord idf tdn ts) { prev := fs.records, currentIds := [], maxDocNo := fs.last_doc_no, changes := emptyChanges }).prev).2 := by simpa using he1
      obtain ⟨st1, hmem, _, hdel1, _⟩ := mem_markDeleted_entries he2
      have hget1 : dictGet e.record_id ((snap.foldl (processRecord idf tdn ts) { prev := fs.records, currentIds := [], maxDocNo := fs.last_doc_no, changes := emptyChanges })).prev = some st1 :=
        dictGet_eq_some_of_mem_nodup hmem hnodupF
      rw [heq, hfl] at hget1
      have hst : st0 = st1 := by
        injection hget1
      rw [← hst] at hdel1
      rw [hdel] at hdel1
      exact Bool.false_ne_true hdel1.symm
    · have hb : (!(((snap.foldl (processRecord idf tdn ts) { prev := fs.records, currentIds := [], maxDocNo := fs.last_doc_no, changes := emptyChanges })).currentIds.contains k) && !st0.deleted) = false := by
        rw [hdel]
        exact Bool.and_false _
      have hv : dictGet k (markDeleted (snap.foldl (processRecord idf tdn ts) { prev := fs.records, currentIds := [], maxDocNo := fs.last_doc_no, changes := emptyChanges }).currentIds (snap.foldl (processRecord idf tdn ts) { prev := fs.records, currentIds := [], maxDocNo := fs.last_doc_no, changes := emptyChanges }).prev).1 = some st0 := by
        rw [markDeleted_get, hfl]
        show some (if (!(((snap.foldl (processRecord idf tdn ts) { prev := fs.records, currentIds := [], maxDocNo := fs.last_doc_no, changes := emptyChanges })).currentIds.contains k) && !st0.deleted) = true
            then { st0 with deleted := true } else st0) = some st0
        rw [if_neg (by rw [hb]; exact Bool.false_ne_true)]
      exact ⟨_, dictGet_dictInsert_self _ _ _, hv⟩

/-- Witness for C8: state with an entry `"B"` already marked deleted and an
entry `"A"` matched by the snapshot; the pass deletes nothing for `"B"` and
leaves it untouched. -/
theorem detect_changes_delete_fires_once_witness :
    dictGet "S.DBF" [("S.DBF",
      ({ records := [("B", { record_id := "B", checksum := "c", last_seen := "t0", deleted := true })] } : FileState))] =
      some ({ records := [("B", { record_id := "B", checksum := "c", last_seen := "t0", deleted := true })] } : FileState) ∧
    (({ records := [("B", { record_id := "B", checksum := "c", last_seen := "t0", deleted := true })] } : FileState).records.map Prod.fst).Nodup ∧
    (∃ ch : Changes,
      (detect_changes [("S.DBF",
        ({ records := [("B", { record_id := "B", checksum := "c", last_seen := "t0", deleted := true })] } : FileState))]
        "S.DBF" "PART_NO" false "t1" (some [[("PART_NO", Value.vStr "A")]])
        (some "m1") true).changes = some ch ∧
      (∀ e ∈ ch.deleted, ∃ st1 : RecordState,
        dictGet e.record_id ({ records := [("B", { record_id := "B", checksum := "c", last_seen := "t0", deleted := true })] } : FileState).records = some st1 ∧ st1.deleted = false ∧
        (∀ r ∈ [[("PART_NO", Value.vStr "A")]],
          recordIdOf "PART_NO" r ≠ "" → recordIdOf "PART_NO" r ≠ e.record_id) ∧
        (∃ fs' : FileState,
          dictGet "S.DBF" (detect_changes [("S.DBF",
            ({ records := [("B", { record_id := "B", checksum := "c", last_seen := "t0", deleted := true })] } : FileState))]
            "S.DBF" "PART_NO" false "t1" (some [[("PART_NO", Value.vStr "A")]])
            (some "m1") true).mem = some fs' ∧
          dictGet e.record_id fs'.records = some { st1 with deleted := true })) ∧
      (∀ (k : String) (st0 : RecordState),
        dictGet k ({ records := [("B", { record_id := "B", checksum := "c", last_seen := "t0", deleted := true })] } : FileState).records = some st0 → st0.deleted = true →
        (∀ r ∈ [[("PART_NO", Value.vStr "A")]], recordIdOf "PART_NO" r ≠ k) →
        (∀ e ∈ ch.new, e.record_id ≠ k) ∧
        (∀ e ∈ ch.updated, e.record_id ≠ k) ∧
        (∀ e ∈ ch.unchanged, e.record_id ≠ k) ∧
        (∀ e ∈ ch.deleted, e.record_id ≠ k) ∧
        (∃ fs' : FileState,
          dictGet "S.DBF" (detect_changes [("S.DBF",
            ({ records := [("B", { record_id := "B", checksum := "c", last_seen := "t0", deleted := true })] } : FileState))]
            "S.DBF" "PART_NO" false "t1" (some [[("PART_NO", Value.vStr "A")]])
            (some "m1") true).mem = some fs' ∧
          dictGet k fs'.records = some st0))) :=
  ⟨by decide, by decide,
    detect_changes_delete_fires_once
      [("S.DBF", ({ records := [("B", { record_id := "B", checksum := "c", last_seen := "t0", deleted := true })] } : FileState))]
      "S.DBF" "PART_NO" false "t1" "m1" [[("PART_NO", Value.vStr "A")]]
      ({ records := [("B", { record_id := "B", checksum := "c", last_seen := "t0", deleted := true })] } : FileState)
      (by decide) (by decide)⟩

/-- The success path of `detect_changes`, with `get_file_state` resolved. -/
theorem detect_changes_success_of (sd : StateData) (fn idf : String) (tdn : Bool)
    (ts mt : String) (recs : List Record) (fs : FileState)
    (hfs : dictGet fn sd = some fs) :
    detect_changes sd fn idf tdn ts (some recs) (some mt) true =
      { changes := some { (recs.foldl (processRecord idf tdn ts) { prev := fs.records, currentIds := [], maxDocNo := fs.last_doc_no, changes := emptyChanges }).changes with deleted := (recs.foldl (processRecord idf tdn ts) { prev := fs.records, currentIds := [], maxDocNo := fs.last_doc_no, changes := emptyChanges }).changes.deleted ++ (markDeleted (recs.foldl (processRecord idf tdn ts) { prev := fs.records, currentIds := [], maxDocNo := fs.last_doc_no, changes := emptyChanges }).currentIds (recs.foldl (processRecord idf tdn ts) { prev := fs.records, currentIds := [], maxDocNo := fs.last_doc_no, changes := emptyChanges }).prev).2 }
        mem := dictInsert fn { fs with last_processed := some ts, last_doc_no := (recs.foldl (processRecord idf tdn ts) { prev := fs.records, currentIds := [], maxDocNo := fs.last_doc_no, changes := emptyChanges }).maxDocNo, records := (markDeleted (recs.foldl (processRecord idf tdn ts) { prev := fs.records, currentIds := [], maxDocNo := fs.last_doc_no, changes := emptyChanges }).currentIds (recs.foldl (processRecord idf tdn ts) { prev := fs.records, currentIds := [], maxDocNo := fs.last_doc_no, changes := emptyChanges }).prev).1, last_modified := some mt } sd
        saved := true } := by
  rw [detect_changes_success_eq, get_file_state_of_some hfs]

/-- `detect_changes` on a file whose `records` already carry the snapshot's
fingerprints (with every other entry already marked deleted) classifies every
keyed record Unchanged and reports no New, Updated or Deleted entries. -/
theorem detect_changes_all_unchanged (sd : StateData) (fn idf : String) (tdn : Bool)
    (ts mt : String) (recs : List Record) (fs : FileState)
    (hfs : dictGet fn sd = some fs)
    (hstable : ∀ r ∈ recs, recordIdOf idf r ≠ "" →
      (dictGet (recordIdOf idf r) fs.records).map RecordState.checksum =
        some (calculate_record_checksum r none))
    (hmarked : ∀ p ∈ fs.records,
      (∃ r ∈ recs, recordIdOf idf r ≠ "" ∧ recordIdOf idf r = p.1) ∨ p.2.deleted = true) :
    (detect_changes sd fn idf tdn ts (some recs) (some mt) true).changes =
      some { new := [], updated := [], deleted := [],
              unchanged := (recs.filter (fun r => !(recordIdOf idf r == ""))).map
                (fun r => { record := r, change_type := ChangeType.UNCHANGED,
                            record_id := recordIdOf idf r }) } := by
  rw [detect_changes_success_of sd fn idf tdn ts mt recs fs hfs]
  obtain ⟨e1, e2, e3, e4, e5⟩ := foldl_all_unchanged recs { prev := fs.records, currentIds := [], maxDocNo := fs.last_doc_no, changes := emptyChanges } hstable
  have hcond : ∀ p ∈ (recs.foldl (processRecord idf tdn ts) { prev := fs.records, currentIds := [], maxDocNo := fs.last_doc_no, changes := emptyChanges }).prev,
      (recs.foldl (processRecord idf tdn ts) { prev := fs.records, currentIds := [], maxDocNo := fs.last_doc_no, changes := emptyChanges }).currentIds.contains p.1 = true ∨ p.2.deleted = true := by
    intro p hp
    rcases e5 p hp with h1 | h1
    · rcases hmarked p h1 with ⟨r, hr, h0, hre⟩ | hdel
      · left
        apply contains_iff.mpr
        rw [foldl_ids_mem]
        exact Or.inr ⟨r, hr, h0, hre⟩
      · exact Or.inr hdel
    · exact Or.inl (contains_iff.mpr h1)
  have hmd : markDeleted (recs.foldl (processRecord idf tdn ts) { prev := fs.records, currentIds := [], maxDocNo := fs.last_doc_no, changes := emptyChanges }).currentIds (recs.foldl (processRecord idf tdn ts) { prev := fs.records, currentIds := [], maxDocNo := fs.last_doc_no, changes := emptyChanges }).prev = ((recs.foldl (processRecord idf tdn ts) { prev := fs.records, currentIds := [], maxDocNo := fs.last_doc_no, changes := emptyChanges }).prev, []) :=
    markDeleted_nil_of hcond
  show some { (recs.foldl (processRecord idf tdn ts) { prev := fs.records, currentIds := [], maxDocNo := fs.last_doc_no, changes := emptyChanges }).changes with deleted := (recs.foldl (processRecord idf tdn ts) { prev := fs.records, currentIds := [], maxDocNo := fs.last_doc_no, changes := emptyChanges }).changes.deleted ++ (markDeleted (recs.foldl (processRecord idf tdn ts) { prev := fs.records, currentIds := [], maxDocNo := fs.last_doc_no, changes := emptyChanges }).currentIds (recs.foldl (processRecord idf tdn ts) { prev := fs.records, currentIds := [], maxDocNo := fs.last_doc_no, changes := emptyChanges }).prev).2 } = _
  rw [hmd]
  simp only [e1, e2, e3, e4]
  simp [emptyChanges]

/-- Claim C2 counterexample: with duplicate keys in the snapshot (two records
both keyed `"A"` with different content), the second identical run still
reports two Updated entries, so idempotence fails as universally stated. -/
theorem detect_changes_idempotence_counterexample :
    ((detect_changes
        (detect_changes [] "STOCK.DBF" "PART_NO" false "t1"
          (some [[("PART_NO", Value.vStr "A"), ("QTY", Value.vStr "1")],
                 [("PART_NO", Value.vStr "A"), ("QTY", Value.vStr "2")]])
          (some "m1") true).mem
        "STOCK.DBF" "PART_NO" false "t2"
        (some [[("PART_NO", Value.vStr "A"), ("QTY", Value.vStr "1")],
               [("PART_NO", Value.vStr "A"), ("QTY", Value.vStr "2")]])
        (some "m2") true).changes.map
      (fun c => (c.new.length, c.updated.length, c.deleted.length, c.unchanged.length))) =
      some (0, 2, 0, 0) := by
  decide

/-- Claim C2 (amended): for every starting state and every snapshot in which
any two records yielding the same nonempty key have equal fingerprints (in
particular whenever keys are distinct, as the key field is meant to be a
primary key), running `detect_changes` twice on the identical snapshot gives,
on the second run, empty New/Updated/Deleted lists and every keyed record
classified Unchanged. -/
theorem detect_changes_idempotent
    (sd : StateData) (fn idf : String) (tdn : Bool) (ts1 ts2 mt1 mt2 : String)
    (snap : List Record)
    (hdup : ∀ r1 ∈ snap, ∀ r2 ∈ snap, recordIdOf idf r1 ≠ "" →
      recordIdOf idf r1 = recordIdOf idf r2 →
      calculate_record_checksum r1 none = calculate_record_checksum r2 none) :
    (detect_changes (detect_changes sd fn idf tdn ts1 (some snap) (some mt1) true).mem
        fn idf tdn ts2 (some snap) (some mt2) true).changes =
      some { new := [], updated := [], deleted := [],
              unchanged := (snap.filter (fun r => !(recordIdOf idf r == ""))).map
                (fun r => { record := r, change_type := ChangeType.UNCHANGED,
                            record_id := recordIdOf idf r }) } := by
  rw [detect_changes_success_eq sd fn idf tdn ts1 mt1 snap]
  apply detect_changes_all_unchanged
  · exact dictGet_dictInsert_self _ _ _
  · intro r hr h0
    have h1 : (dictGet (recordIdOf idf r) ((snap.foldl (processRecord idf tdn ts1) { prev := (get_file_state sd fn).1.records, currentIds := [], maxDocNo := (get_file_state sd fn).1.last_doc_no, changes := emptyChanges }).prev)).map RecordState.checksum =
        some (calculate_record_checksum r none) := by
      apply foldl_checksum_mem hr h0
      intro r' hr' he
      have h0' : recordIdOf idf r' ≠ "" := by
        rw [he]
        exact h0
      exact hdup r' hr' r hr h0' he
    have h2 := markDeleted_get_checksum (snap.foldl (processRecord idf tdn ts1) { prev := (get_file_state sd fn).1.records, currentIds := [], maxDocNo := (get_file_state sd fn).1.last_doc_no, changes := emptyChanges }).currentIds (recordIdOf idf r) (snap.foldl (processRecord idf tdn ts1) { prev := (get_file_state sd fn).1.records, currentIds := [], maxDocNo := (get_file_state sd fn).1.last_doc_no, changes := emptyChanges }).prev
    rw [h1] at h2
    exact h2
  · intro p hp
    have hp' : p ∈ (markDeleted (snap.foldl (processRecord idf tdn ts1) { prev := (get_file_state sd fn).1.records, currentIds := [], maxDocNo := (get_file_state sd fn).1.last_doc_no, changes := emptyChanges }).currentIds (snap.foldl (processRecord idf tdn ts1) { prev := (get_file_state sd fn).1.records, currentIds := [], maxDocNo := (get_file_state sd fn).1.last_doc_no, changes := emptyChanges }).prev).1 := hp
    rcases markDeleted_post p hp' with h1 | h1
    · have h2 : p.1 ∈ (snap.foldl (processRecord idf tdn ts1) { prev := (get_file_state sd fn).1.records, currentIds := [], maxDocNo := (get_file_state sd fn).1.last_doc_no, changes := emptyChanges }).currentIds := contains_iff.mp h1
      rw [foldl_ids_mem] at h2
      rcases h2 with h3 | h3
      · simp at h3
      · exact Or.inl h3
    · exact Or.inr h1

/-- Witness for the amended C2 at a concrete one-record snapshot. -/
theorem detect_changes_idempotent_witness :
    (∀ r1 ∈ [[("PART_NO", Value.vStr "A"), ("QTY", Value.vStr "1")]],
      ∀ r2 ∈ [[("PART_NO", Value.vStr "A"), ("QTY", Value.vStr "1")]],
      recordIdOf "PART_NO" r1 ≠ "" →
      recordIdOf "PART_NO" r1 = recordIdOf "PART_NO" r2 →
      calculate_record_checksum r1 none = calculate_record_checksum r2 none) ∧
    (detect_changes (detect_changes [] "STOCK.DBF" "PART_NO" false "t1"
        (some [[("PART_NO", Value.vStr "A"), ("QTY", Value.vStr "1")]]) (some "m1") true).mem
        "STOCK.DBF" "PART_NO" false "t2"
        (some [[("PART_NO", Value.vStr "A"), ("QTY", Value.vStr "1")]]) (some "m2") true).changes =
      some { new := [], updated := [], deleted := [],
              unchanged := (([[("PART_NO", Value.vStr "A"), ("QTY", Value.vStr "1")]] :
                  List Record).filter (fun r => !(recordIdOf "PART_NO" r == ""))).map
                (fun r => { record := r, change_type := ChangeType.UNCHANGED,
                            record_id := recordIdOf "PART_NO" r }) } :=
  ⟨by decide,
    detect_changes_idempotent [] "STOCK.DBF" "PART_NO" false "t1" "t2" "m1" "m2"
      [[("PART_NO", Value.vStr "A"), ("QTY", Value.vStr "1")]] (by decide)⟩

/-- Claim C1 (evaluation of the code at the spec's scenario): a record keyed
`"A"` present in cycle 1, absent in cycle 2 and present again with the same
content in cycle 3 is classified New, Deleted — and then Unchanged, NOT New:
cycle 3 finds the key still in `previous_records` (the `deleted` flag is
never consulted on lookup) and the stale fingerprint matches, so the
re-added record produces no sync event at all. -/
theorem reappearing_deleted_key_not_classified_new :
    ((detect_changes [] "STOCK.DBF" "PART_NO" false "t1" (some [[("PART_NO", Value.vStr "A"), ("PRICE", Value.vStr "10.00")]]) (some "m1") true).changes.map (fun c => c.new.map NewEntry.record_id)) = some ["A"] ∧
    ((detect_changes (detect_changes [] "STOCK.DBF" "PART_NO" false "t1" (some [[("PART_NO", Value.vStr "A"), ("PRICE", Value.vStr "10.00")]]) (some "m1") true).mem "STOCK.DBF" "PART_NO" false "t2" (some []) (some "m2") true).changes.map (fun c => c.deleted.map DeletedEntry.record_id)) = some ["A"] ∧
    ((detect_changes (detect_changes (detect_changes [] "STOCK.DBF" "PART_NO" false "t1" (some [[("PART_NO", Value.vStr "A"), ("PRICE", Value.vStr "10.00")]]) (some "m1") true).mem "STOCK.DBF" "PART_NO" false "t2" (some []) (some "m2") true).mem "STOCK.DBF" "PART_NO" false "t3" (some [[("PART_NO", Value.vStr "A"), ("PRICE", Value.vStr "10.00")]]) (some "m3") true).changes.map (fun c =>
      (c.new.map NewEntry.record_id, c.updated.map UpdatedEntry.record_id,
       c.unchanged.map UnchangedEntry.record_id))) = some ([], [], ["A"]) := by
  decide

/-- Claim C3 (evaluation of the code at a failing pass): with prior state
`"A" ↦ checksum "OLD"` and a snapshot in which `"A"` changed, a failure of
`file_path.stat()` after the record loop aborts the pass (`changes = none`,
nothing saved) — but the in-memory `SourceState` is NOT what it was before
the pass: `previous_records` aliases `state_data`, so `"A"`'s stored
fingerprint has already been overwritten with the new one.  There is no
working copy. -/
theorem failed_pass_mutates_in_memory_state :
    (detect_changes [("STOCK.DBF", ({ last_processed := some "t0", records := [("A", { record_id := "A", checksum := "OLD", last_seen := "t0" })] } : FileState))] "STOCK.DBF" "PART_NO" false "t1" (some [[("PART_NO", Value.vStr "A"), ("QTY", Value.vStr "2")]]) none true).changes = none ∧
    (detect_changes [("STOCK.DBF", ({ last_processed := some "t0", records := [("A", { record_id := "A", checksum := "OLD", last_seen := "t0" })] } : FileState))] "STOCK.DBF" "PART_NO" false "t1" (some [[("PART_NO", Value.vStr "A"), ("QTY", Value.vStr "2")]]) none true).saved = false ∧
    (detect_changes [("STOCK.DBF", ({ last_processed := some "t0", records := [("A", { record_id := "A", checksum := "OLD", last_seen := "t0" })] } : FileState))] "STOCK.DBF" "PART_NO" false "t1" (some [[("PART_NO", Value.vStr "A"), ("QTY", Value.vStr "2")]]) none true).mem ≠ [("STOCK.DBF", ({ last_processed := some "t0", records := [("A", { record_id := "A", checksum := "OLD", last_seen := "t0" })] } : FileState))] ∧
    ((dictGet "STOCK.DBF" (detect_changes [("STOCK.DBF", ({ last_processed := some "t0", records := [("A", { record_id := "A", checksum := "OLD", last_seen := "t0" })] } : FileState))] "STOCK.DBF" "PART_NO" false "t1" (some [[("PART_NO", Value.vStr "A"), ("QTY", Value.vStr "2")]]) none true).mem).map
      (fun fs => (dictGet "A" fs.records).map RecordState.checksum)) =
      some (some (calculate_record_checksum [("PART_NO", Value.vStr "A"), ("QTY", Value.vStr "2")] none)) ∧
    calculate_record_checksum [("PART_NO", Value.vStr "A"), ("QTY", Value.vStr "2")] none ≠ "OLD" := by
  decide

end ESL
